import Mathlib

/-!
# shotit: the execution planner of `main.go`

A shallow embedding of the three execution passes of `main.go`
(`executeInstalls`, `executeTools`, `executeWordlists`) together with the
helpers they call (`contains`, `checkBinaryExists`, `checkPathExists`,
`checkCondition`, `fileExists`, `checkPackageManager`, `executeShellCommand`,
`executeCommand`).

The operating system is a parameter: a `World σ` gives, for a state `s : σ`,
the answers of `exec.LookPath`, `os.Stat`, `os.ExpandEnv`, `os.Getenv "GOOS"`
and the effect of running `sh -c command`.  Running a command may change the
state, so every later probe sees the state the earlier commands left behind.

Every function returns the new state together with the trace of what it did:
the calls of the colour printers in source order, one `spawn` event for every
subprocess started, and one `exec` event for every call of
`executeShellCommand` (its arguments and the error it returned).
-/

namespace Shotit

/-! ## Data model (`main.go` lines 15-41) -/

/-- One entry of a tool's `commands` list: a single `cmd`, or an `or` list. -/
structure Command where
  Cmd : String
  Or : List String
deriving DecidableEq, Repr

/-- A tool or wordlist (the struct `Tool` serves both lists of `Config`). -/
structure Tool where
  Name : String
  Description : String
  Commands : List Command
  Condition : String
  Binary : String
  Path : String
deriving DecidableEq, Repr

/-- An install.  The Go field `Commands` is a `map[string][]string`; the list
holds its entries in the order in which the `range` statement of
`executeInstalls` yields them in the run under consideration. -/
structure Install where
  Name : String
  Description : String
  Commands : List (String × List String)
deriving DecidableEq, Repr

/-- The parsed configuration file. -/
structure Config where
  Name : String
  Description : String
  Installs : List Install
  Tools : List Tool
  Wordlists : List Tool
deriving DecidableEq, Repr

/-! ## The operating system -/

/-- The three outcomes of `os.Stat` the program distinguishes: `err == nil`,
`os.IsNotExist(err)`, and any other error. -/
inductive StatResult
  | ok
  | notExist
  | otherError
deriving DecidableEq, Repr

/-- The operating system as seen by the program, over a state type `σ`. -/
structure World (σ : Type) where
  /-- Whether `exec.LookPath(name)` returns a nil error. -/
  lookPath : σ → String → Bool
  /-- The result of `os.ExpandEnv(path)`. -/
  expandEnv : σ → String → String
  /-- The result of `os.Stat(path)`. -/
  stat : σ → String → StatResult
  /-- The value of `strings.ToLower(os.Getenv("GOOS"))`. -/
  lowerGOOS : σ → String
  /-- Running `exec.Command("sh", "-c", command)` with `Run()`: the state it
  leaves and the error it returns (`none` for a nil error). -/
  sh : σ → String → σ × Option String

/-! ## Traces -/

/-- The colour printers created with `color.New`; `plain` is package `fmt`. -/
inductive Color
  | plain
  | green
  | cyan
  | yellow
  | red
  | faint
deriving DecidableEq, Repr

/-- What the program does, in order. -/
inductive Event
  /-- A call `c.Print(text)`. -/
  | print (c : Color) (text : String)
  /-- A call `c.Println(text)`. -/
  | println (c : Color) (text : String)
  /-- A call `c.Printf(format, args...)`, the arguments rendered as text. -/
  | printf (c : Color) (format : String) (args : List String)
  /-- A subprocess `sh -c command` was started and waited for. -/
  | spawn (command : String)
  /-- One call `executeShellCommand(command, dryRun)` and the error returned. -/
  | exec (command : String) (dryRun : Bool) (err : Option String)
deriving DecidableEq, Repr

/-- The result of a piece of the program: new state, trace, returned value. -/
structure Res (σ : Type) (α : Type) where
  state : σ
  trace : List Event
  val : α

/-- The executor calls of a trace in order: command text and whether the call
returned a nil error. -/
def attempts (tr : List Event) : List (String × Bool) :=
  tr.filterMap fun e =>
    match e with
    | .exec command _ err => some (command, err.isNone)
    | _ => none

/-- The commands for which a subprocess was started, in order. -/
def spawns (tr : List Event) : List String :=
  tr.filterMap fun e =>
    match e with
    | .spawn command => some command
    | _ => none

/-- The events of a trace other than printer calls: what is left of a trace
once the messages are ignored. -/
def effects (tr : List Event) : List Event :=
  tr.filter fun e =>
    match e with
    | .spawn _ => true
    | .exec _ _ _ => true
    | _ => false

/-! ## Library functions of Go used by the program -/

/-- Go's `unicode.IsSpace`: the Unicode White_Space property. -/
def isSpace (c : Char) : Bool :=
  let n := c.toNat
  (0x09 ≤ n && n ≤ 0x0D) || n == 0x20 || n == 0x85 || n == 0xA0 || n == 0x1680 ||
    (0x2000 ≤ n && n ≤ 0x200A) || n == 0x2028 || n == 0x2029 || n == 0x202F ||
    n == 0x205F || n == 0x3000

/-- Go's `strings.TrimSpace`: leading and trailing white space removed. -/
def TrimSpace (s : String) : String :=
  ⟨((s.data.dropWhile isSpace).reverse.dropWhile isSpace).reverse⟩

/-- Go's `strings.Contains(s, substr)`. -/
def stringsContains (s substr : String) : Bool :=
  s.data.tails.any fun t => substr.data.isPrefixOf t

/-! ## Environment probes (`main.go` lines 610-692) -/

section Probes

variable {σ : Type}

/-- `checkBinaryExists` (lines 610-613). -/
def checkBinaryExists (w : World σ) (s : σ) (binary : String) : Bool :=
  w.lookPath s binary

/-- `checkPathExists` (lines 615-619). -/
def checkPathExists (w : World σ) (s : σ) (path : String) : Bool :=
  let expandedPath := w.expandEnv s path
  w.stat s expandedPath == StatResult.ok

/-- `contains` (lines 621-628). -/
def contains : List String → String → Bool
  | [], _ => false
  | s :: rest, item => if s = item then true else contains rest item

/-- `fileExists` (lines 660-663). -/
def fileExists (w : World σ) (s : σ) (filename : String) : Bool :=
  !(w.stat s filename == StatResult.notExist)

/-- `checkCondition` (lines 646-658). -/
def checkCondition (w : World σ) (s : σ) (condition : String) : Bool :=
  if condition = "linux" then
    stringsContains (w.lowerGOOS s) "linux" || fileExists w s "/etc/os-release"
  else if condition = "macos" then
    stringsContains (w.lowerGOOS s) "darwin" ||
      fileExists w s "/System/Library/CoreServices/SystemVersion.plist"
  else if condition = "windows" then
    stringsContains (w.lowerGOOS s) "windows"
  else
    w.lookPath s condition

/-- `checkPackageManager` (lines 665-692). -/
def checkPackageManager (w : World σ) (s : σ) (pkgManager : String) : Bool :=
  if pkgManager = "apt" then w.lookPath s "apt"
  else if pkgManager = "pacman" then w.lookPath s "pacman"
  else if pkgManager = "yum" then w.lookPath s "yum"
  else if pkgManager = "dnf" then w.lookPath s "dnf"
  else if pkgManager = "brew" then w.lookPath s "brew"
  else if pkgManager = "apk" then w.lookPath s "apk"
  else if pkgManager = "zypper" then w.lookPath s "zypper"
  else w.lookPath s pkgManager

end Probes

/-! ## The command executor (`main.go` lines 630-644, 694-696) -/

section Executor

variable {σ : Type}

/-- `executeShellCommand` (lines 630-644).  The returned value is the error,
`none` for nil. -/
def executeShellCommand (w : World σ) (s : σ) (command : String) (dryRun : Bool) :
    Res σ (Option String) :=
  if TrimSpace command = "" then
    ⟨s, [Event.exec command dryRun (some "empty command")], some "empty command"⟩
  else if dryRun then
    ⟨s, [Event.exec command dryRun none], none⟩
  else
    let r := w.sh s command
    ⟨r.1, [Event.spawn command, Event.exec command dryRun r.2], r.2⟩

/-- `executeCommand` (lines 694-696). -/
def executeCommand (w : World σ) (s : σ) (command : String) : Res σ (Option String) :=
  executeShellCommand w s command false

end Executor

/-! ## The execution planner (`main.go` lines 280-522) -/

section Planner

variable {σ : Type}

/-- The call `fmt.Printf("  ")` that precedes most messages. -/
def indent : Event := Event.printf Color.plain "  " []

/-! ### Installs -/

/-- The loop `for _, command := range commands` of `executeInstalls`
(lines 306-317): a failing command ends the loop (`break`). -/
def installCommands (w : World σ) (s : σ) (dryRun : Bool) : List String → Res σ Unit
  | [] => ⟨s, [], ()⟩
  | command :: rest =>
    let shown := [indent, Event.printf Color.faint "$ %s\n" [command]]
    if !dryRun then
      let r := executeCommand w s command
      match r.val with
      | some err =>
        ⟨r.state, shown ++ r.trace ++ [indent, Event.printf Color.red "Error: %v\n" [err]], ()⟩
      | none =>
        let k := installCommands w r.state dryRun rest
        ⟨k.state, shown ++ r.trace ++ k.trace, ()⟩
    else
      let k := installCommands w s dryRun rest
      ⟨k.state, shown ++ k.trace, ()⟩

/-- The loop `for pkgManager, commands := range install.Commands` of
`executeInstalls` (lines 302-321); the returned value is `executed`. -/
def installManagers (w : World σ) (s : σ) (dryRun : Bool) :
    List (String × List String) → Res σ Bool
  | [] => ⟨s, [], false⟩
  | (pkgManager, commands) :: rest =>
    if checkPackageManager w s pkgManager then
      let r := installCommands w s dryRun commands
      ⟨r.state, [indent, Event.printf Color.yellow "using %s\n" [pkgManager]] ++ r.trace, true⟩
    else
      installManagers w s dryRun rest

/-- The body of the loop over `config.Installs` (lines 295-327). -/
def installBody (w : World σ) (s : σ) (dryRun : Bool) (install : Install) : Res σ Unit :=
  let header :=
    [Event.print Color.cyan ("[" ++ install.Name ++ "]")] ++
    (if install.Description ≠ "" then [Event.printf Color.plain " %s" [install.Description]]
     else []) ++
    [Event.printf Color.plain "\n" []]
  let r := installManagers w s dryRun install.Commands
  let missing :=
    if !r.val then [indent, Event.println Color.yellow "no compatible package manager found"]
    else []
  ⟨r.state, header ++ r.trace ++ missing ++ [Event.printf Color.plain "\n" []], ()⟩

/-- The loop `for _, install := range config.Installs` (line 294). -/
def installLoop (w : World σ) (s : σ) (dryRun : Bool) : List Install → Res σ Unit
  | [] => ⟨s, [], ()⟩
  | install :: rest =>
    let r := installBody w s dryRun install
    let k := installLoop w r.state dryRun rest
    ⟨k.state, r.trace ++ k.trace, ()⟩

/-- `executeInstalls` (lines 280-329). -/
def executeInstalls (w : World σ) (s : σ) (config : Config) (dryRun : Bool) : Res σ Unit :=
  if config.Installs.length = 0 then ⟨s, [], ()⟩
  else
    let r := installLoop w s dryRun config.Installs
    ⟨r.state,
      [Event.print Color.green "executing installs: ",
        Event.printf Color.plain "%s\n\n" [config.Name]] ++ r.trace, ()⟩

/-! ### Tools -/

/-- The loop `for _, orCmd := range command.Or` of `executeTools`
(lines 386-406); the returned value is `executed`. -/
def toolOrLoop (w : World σ) (s : σ) (dryRun : Bool) : List String → Res σ Bool
  | [] => ⟨s, [], false⟩
  | orCmd :: rest =>
    let shown := [indent, Event.print Color.faint ("$ " ++ orCmd)]
    if !dryRun then
      let r := executeShellCommand w s orCmd dryRun
      match r.val with
      | some _ =>
        let k := toolOrLoop w r.state dryRun rest
        ⟨k.state,
          shown ++ r.trace ++
            [Event.printf Color.plain " " [], Event.print Color.red "(failed)",
              Event.printf Color.plain "\n" []] ++ k.trace,
          k.val⟩
      | none =>
        ⟨r.state,
          shown ++ r.trace ++
            [Event.printf Color.plain " " [], Event.print Color.green "(success)",
              Event.printf Color.plain "\n" []],
          true⟩
    else
      let k := toolOrLoop w s dryRun rest
      ⟨k.state, shown ++ [Event.printf Color.plain "\n" []] ++ k.trace, k.val⟩

/-- The body of the loop over `tool.Commands` (lines 373-411). -/
def toolCommand (w : World σ) (s : σ) (dryRun : Bool) (command : Command) : Res σ Unit :=
  if command.Cmd ≠ "" then
    let shown := [indent, Event.printf Color.faint "$ %s\n" [command.Cmd]]
    if !dryRun then
      let r := executeShellCommand w s command.Cmd dryRun
      match r.val with
      | some err =>
        ⟨r.state, shown ++ r.trace ++ [indent, Event.printf Color.red "Error: %v\n" [err]], ()⟩
      | none => ⟨r.state, shown ++ r.trace, ()⟩
    else ⟨s, shown, ()⟩
  else if command.Or.length > 0 then
    let r := toolOrLoop w s dryRun command.Or
    if !dryRun && !r.val then
      ⟨r.state, r.trace ++ [indent, Event.println Color.red "all fallback commands failed"], ()⟩
    else ⟨r.state, r.trace, ()⟩
  else ⟨s, [], ()⟩

/-- The loop `for _, command := range tool.Commands` (line 372). -/
def toolCommands (w : World σ) (s : σ) (dryRun : Bool) : List Command → Res σ Unit
  | [] => ⟨s, [], ()⟩
  | command :: rest =>
    let r := toolCommand w s dryRun command
    let k := toolCommands w r.state dryRun rest
    ⟨k.state, r.trace ++ k.trace, ()⟩

/-- The three printer calls that open the body of the loops over tools and
wordlists (lines 346-348 and 438-440). -/
def entityHeader (tool : Tool) : List Event :=
  [Event.printf Color.plain "[" [], Event.print Color.cyan tool.Name,
    Event.printf Color.plain "] %s\n" [tool.Description]]

/-- The body of the loop over `config.Tools` (lines 346-413). -/
def toolBody (w : World σ) (s : σ) (dryRun skipAvailable : Bool) (skipTools : List String)
    (tool : Tool) : Res σ Unit :=
  if contains skipTools tool.Name then
    ⟨s, entityHeader tool ++
      [indent, Event.printf Color.yellow "skipping - %s specified in -st\n\n" [tool.Name]], ()⟩
  else if tool.Binary ≠ "" && checkBinaryExists w s tool.Binary then
    ⟨s, entityHeader tool ++
      [indent,
        if skipAvailable then
          Event.printf Color.yellow "skipping - %s already available\n\n" [tool.Binary]
        else
          Event.printf Color.green "already installed - %s found\n\n" [tool.Binary]], ()⟩
  else if tool.Condition ≠ "" && !checkCondition w s tool.Condition then
    ⟨s, entityHeader tool ++
      [indent,
        Event.printf Color.yellow "skipping - condition not met: %s\n\n" [tool.Condition]], ()⟩
  else
    let r := toolCommands w s dryRun tool.Commands
    ⟨r.state, entityHeader tool ++ r.trace ++ [Event.printf Color.plain "\n" []], ()⟩

/-- The loop `for _, tool := range config.Tools` (line 345). -/
def toolLoop (w : World σ) (s : σ) (dryRun skipAvailable : Bool) (skipTools : List String) :
    List Tool → Res σ Unit
  | [] => ⟨s, [], ()⟩
  | tool :: rest =>
    let r := toolBody w s dryRun skipAvailable skipTools tool
    let k := toolLoop w r.state dryRun skipAvailable skipTools rest
    ⟨k.state, r.trace ++ k.trace, ()⟩

/-- `executeTools` (lines 331-421). -/
def executeTools (w : World σ) (s : σ) (config : Config) (dryRun skipAvailable : Bool)
    (skipTools : List String) : Res σ Unit :=
  if config.Tools.length = 0 then ⟨s, [], ()⟩
  else
    let r := toolLoop w s dryRun skipAvailable skipTools config.Tools
    ⟨r.state,
      [Event.print Color.green "executing tools: ",
        Event.printf Color.plain "%s\n\n" [config.Name]] ++ r.trace ++
      [if dryRun then Event.println Color.yellow "dry run completed - no commands were executed"
       else Event.println Color.green "installation completed"], ()⟩

/-! ### Wordlists -/

/-- The loop `for _, orCmd := range command.Or` of `executeWordlists`
(lines 487-507); the returned value is `executed`. -/
def wordlistOrLoop (w : World σ) (s : σ) (dryRun : Bool) : List String → Res σ Bool
  | [] => ⟨s, [], false⟩
  | orCmd :: rest =>
    let shown := [indent, Event.print Color.faint ("$ " ++ orCmd)]
    if !dryRun then
      let r := executeCommand w s orCmd
      match r.val with
      | some _ =>
        let k := wordlistOrLoop w r.state dryRun rest
        ⟨k.state,
          shown ++ r.trace ++
            [Event.printf Color.plain " " [], Event.print Color.red "(failed)",
              Event.printf Color.plain "\n" []] ++ k.trace,
          k.val⟩
      | none =>
        ⟨r.state,
          shown ++ r.trace ++
            [Event.printf Color.plain " " [], Event.print Color.green "(success)",
              Event.printf Color.plain "\n" []],
          true⟩
    else
      let k := wordlistOrLoop w s dryRun rest
      ⟨k.state, shown ++ [Event.printf Color.plain "\n" []] ++ k.trace, k.val⟩

/-- The body of the loop over `wordlist.Commands` (lines 474-512). -/
def wordlistCommand (w : World σ) (s : σ) (dryRun : Bool) (command : Command) : Res σ Unit :=
  if command.Cmd ≠ "" then
    let shown := [indent, Event.printf Color.faint "$ %s\n" [command.Cmd]]
    if !dryRun then
      let r := executeCommand w s command.Cmd
      match r.val with
      | some err =>
        ⟨r.state, shown ++ r.trace ++ [indent, Event.printf Color.red "Error: %v\n" [err]], ()⟩
      | none => ⟨r.state, shown ++ r.trace, ()⟩
    else ⟨s, shown, ()⟩
  else if command.Or.length > 0 then
    let r := wordlistOrLoop w s dryRun command.Or
    if !dryRun && !r.val then
      ⟨r.state, r.trace ++ [indent, Event.println Color.red "all fallback commands failed"], ()⟩
    else ⟨r.state, r.trace, ()⟩
  else ⟨s, [], ()⟩

/-- The loop `for _, command := range wordlist.Commands` (line 473). -/
def wordlistCommands (w : World σ) (s : σ) (dryRun : Bool) : List Command → Res σ Unit
  | [] => ⟨s, [], ()⟩
  | command :: rest =>
    let r := wordlistCommand w s dryRun command
    let k := wordlistCommands w r.state dryRun rest
    ⟨k.state, r.trace ++ k.trace, ()⟩

/-- The body of the loop over `config.Wordlists` (lines 438-514). -/
def wordlistBody (w : World σ) (s : σ) (dryRun skipAvailable : Bool) (skipTools : List String)
    (wordlist : Tool) : Res σ Unit :=
  if contains skipTools wordlist.Name then
    ⟨s, entityHeader wordlist ++
      [indent,
        Event.printf Color.yellow "skipping - %s specified in -st\n\n" [wordlist.Name]], ()⟩
  else if (wordlist.Binary ≠ "" && checkBinaryExists w s wordlist.Binary) ||
      (wordlist.Path ≠ "" && checkPathExists w s wordlist.Path) then
    if wordlist.Binary ≠ "" then
      ⟨s, entityHeader wordlist ++
        [indent,
          if skipAvailable then
            Event.printf Color.yellow "skipping - %s already available\n\n" [wordlist.Binary]
          else
            Event.printf Color.green "already installed - %s found\n\n" [wordlist.Binary]], ()⟩
    else
      ⟨s, entityHeader wordlist ++
        [indent,
          if skipAvailable then
            Event.printf Color.yellow "skipping - %s already available\n\n" [wordlist.Path]
          else
            Event.printf Color.green "already exists - %s found\n\n" [wordlist.Path]], ()⟩
  else if wordlist.Condition ≠ "" && !checkCondition w s wordlist.Condition then
    ⟨s, entityHeader wordlist ++
      [indent,
        Event.printf Color.yellow "skipping - condition not met: %s\n\n" [wordlist.Condition]],
      ()⟩
  else
    let r := wordlistCommands w s dryRun wordlist.Commands
    ⟨r.state, entityHeader wordlist ++ r.trace ++ [Event.printf Color.plain "\n" []], ()⟩

/-- The loop `for _, wordlist := range config.Wordlists` (line 437). -/
def wordlistLoop (w : World σ) (s : σ) (dryRun skipAvailable : Bool)
    (skipTools : List String) : List Tool → Res σ Unit
  | [] => ⟨s, [], ()⟩
  | wordlist :: rest =>
    let r := wordlistBody w s dryRun skipAvailable skipTools wordlist
    let k := wordlistLoop w r.state dryRun skipAvailable skipTools rest
    ⟨k.state, r.trace ++ k.trace, ()⟩

/-- `executeWordlists` (lines 423-522). -/
def executeWordlists (w : World σ) (s : σ) (config : Config) (dryRun skipAvailable : Bool)
    (skipTools : List String) : Res σ Unit :=
  if config.Wordlists.length = 0 then ⟨s, [], ()⟩
  else
    let r := wordlistLoop w s dryRun skipAvailable skipTools config.Wordlists
    ⟨r.state,
      [Event.print Color.green "executing wordlists: ",
        Event.printf Color.plain "%s\n\n" [config.Name]] ++ r.trace ++
      [if dryRun then Event.println Color.yellow "dry run completed - no commands were executed"
       else Event.println Color.green "wordlists installation completed"], ()⟩

/-! ### The execute mode of `main` -/

/-- The last three statements of `main` (lines 86-88): the three passes in
order, each starting in the state the previous one left. -/
def executeAll (w : World σ) (s : σ) (config : Config) (dryRun skipAvailable : Bool)
    (skipTools : List String) : Res σ Unit :=
  let a := executeInstalls w s config dryRun
  let b := executeTools w a.state config dryRun skipAvailable skipTools
  let c := executeWordlists w b.state config dryRun skipAvailable skipTools
  ⟨c.state, a.trace ++ b.trace ++ c.trace, ()⟩

end Planner

/-! ## A concrete operating system for evaluating the definitions -/

/-- A small system whose state counts the subprocesses run so far.  The binaries
`sh`, `apt` and `nmap` are on the search path, the file `/etc/os-release`
exists and nothing else does, `GOOS` is unset, and a command fails exactly
when it starts with the letter `f`. -/
def demoWorld : World Nat where
  lookPath := fun _ name => name == "sh" || name == "apt" || name == "nmap"
  expandEnv := fun _ path => path
  stat := fun _ path => if path == "/etc/os-release" then StatResult.ok else StatResult.notExist
  lowerGOOS := fun _ => ""
  sh := fun n command =>
    (n + 1, if command.data.head? == some 'f' then some "exit status 1" else none)

/-! ## The terminal outcomes of an entity, as traces -/

/-- What the body of the tool and wordlist loops does when it takes the
skip-by-name branch (lines 346-353 and 438-445): the header, then the message
`skipping - NAME specified in -st`. -/
def skippedByName (entity : Tool) : List Event :=
  entityHeader entity ++
    [indent, Event.printf Color.yellow "skipping - %s specified in -st\n\n" [entity.Name]]

/-- What the body of the tool loop does when it takes the availability branch
(lines 346-348 and 356-364): the header, then `skipping - BINARY already
available` under the skip-available flag and `already installed - BINARY found`
without it. -/
def skippedAvailable (skipAvailable : Bool) (entity : Tool) : List Event :=
  entityHeader entity ++
    [indent,
      if skipAvailable then
        Event.printf Color.yellow "skipping - %s already available\n\n" [entity.Binary]
      else
        Event.printf Color.green "already installed - %s found\n\n" [entity.Binary]]

/-- What the body of the tool and wordlist loops does when it takes the
condition branch (lines 346-348, 366-370 and 438-440, 467-471): the header,
then the message `skipping - condition not met: CONDITION`. -/
def skippedCondition (entity : Tool) : List Event :=
  entityHeader entity ++
    [indent,
      Event.printf Color.yellow "skipping - condition not met: %s\n\n" [entity.Condition]]

/-- The attempts `att` follow the command list `commands`: they split into one
segment per `Command`, in declared order, where the segment of a `Command`
with a non-empty `cmd` is exactly one attempt of that `cmd`, and the segment of
a `Command` with an empty `cmd` is either all alternatives of its `or` list,
each failed, or the failed alternatives before the first success followed by
that success. -/
def AttemptsFollow (commands : List Command) (att : List (String × Bool)) : Prop :=
  ∃ segments : List (List (String × Bool)),
    att = segments.flatten ∧
    List.Forall₂
      (fun (command : Command) (segment : List (String × Bool)) =>
        (command.Cmd ≠ "" → segment.map Prod.fst = [command.Cmd]) ∧
        (command.Cmd = "" →
          segment = command.Or.map (fun a => (a, false)) ∨
          ∃ failed b untried, command.Or = failed ++ b :: untried ∧
            segment = failed.map (fun a => (a, false)) ++ [(b, true)]))
      commands segments

/-! ## Example configurations -/

/-- A tool whose binary `nmap` is on the search path of `demoWorld`. -/
def demoNmap : Tool :=
  ⟨"nmap", "network scanner", [⟨"echo installing nmap", []⟩], "", "nmap", ""⟩

/-- A wordlist with no binary whose path exists in `demoWorld`. -/
def demoRelease : Tool :=
  ⟨"release", "os release file", [⟨"touch /etc/os-release", []⟩], "", "", "/etc/os-release"⟩

/-- A wordlist with a path that does not exist in `demoWorld`, no binary and
no condition; its second command fails. -/
def demoCommon : Tool :=
  ⟨"common", "common wordlist",
    [⟨"mkdir -p $HOME/wordlists", []⟩, ⟨"false", []⟩,
      ⟨"", ["fetch common.txt", "curl -O common.txt", "wget common.txt"]⟩,
      ⟨"echo done", []⟩],
    "", "", "$HOME/wordlists/common.txt"⟩

/-- A tool for Windows only that declares no binary. -/
def demoWindows : Tool :=
  ⟨"putty", "ssh client", [⟨"choco install putty", []⟩], "windows", "", ""⟩

/-- A tool for Windows only whose declared binary is on the search path. -/
def demoWindowsNmap : Tool :=
  ⟨"nmap-win", "network scanner", [⟨"choco install nmap", []⟩], "windows", "nmap", ""⟩

/-- A tool named `Gau` with neither binary nor condition. -/
def demoGau : Tool :=
  ⟨"Gau", "url fetcher", [⟨"go install gau", []⟩], "", "", ""⟩

/-- A tool that is not available in `demoWorld`; its first command fails and
its second is a fallback list whose second alternative succeeds. -/
def demoHttpx : Tool :=
  ⟨"httpx", "http prober",
    [⟨"false", []⟩, ⟨"", ["fetch httpx", "go install httpx", "brew install httpx"]⟩,
      ⟨"echo done", []⟩],
    "", "httpx", ""⟩

/-- A fallback list `[A, B, C]` in which `A` fails and `B` succeeds. -/
def demoFallback : Command :=
  ⟨"", ["fetch a", "b", "c"]⟩

/-- A `Command` with both `cmd` and `or` populated. -/
def demoBoth : Command :=
  ⟨"false", ["echo fallback"]⟩

/-- A `Command` with neither `cmd` nor `or` populated. -/
def demoNeither : Command :=
  ⟨"", []⟩

/-- An install whose second manager is the first one present in `demoWorld`. -/
def demoGo : Install :=
  ⟨"go", "go toolchain",
    [("pacman", ["pacman -S go"]), ("apt", ["apt update", "apt install golang"]),
      ("sh", ["sh get-go.sh"])]⟩

/-- A configuration whose second tool and only wordlist are available. -/
def demoAvailable : Config :=
  ⟨"demo", "", [], [demoGau, demoNmap], [demoRelease]⟩

/-- An install whose only manager is present and whose second command fails. -/
def demoRust : Install :=
  ⟨"rust", "", [("apt", ["apt update", "false", "apt install rustc"])]⟩

/-- An install none of whose managers is present in `demoWorld`. -/
def demoZig : Install :=
  ⟨"zig", "", [("pacman", ["pacman -S zig"]), ("brew", ["brew install zig"])]⟩

/-- A configuration with installs, tools and a wordlist that run commands. -/
def demoFull : Config :=
  ⟨"full", "", [demoGo, demoRust], [demoHttpx, demoNmap], [demoCommon]⟩

/-- A configuration with three installs and nothing else. -/
def demoInstalls : Config :=
  ⟨"installs", "", [demoGo, demoZig, demoRust], [], []⟩

/-- A `Command` whose `cmd` succeeds and that also has an `or` list. -/
def demoTrueOr : Command :=
  ⟨"true", ["a", "b"]⟩

/-- A tool with neither binary nor condition whose only `Command` is
`demoTrueOr`. -/
def demoAmass : Tool :=
  ⟨"amass", "subdomain finder", [demoTrueOr], "", "", ""⟩

/-- A configuration with the single tool `demoAmass`, which is also its single
wordlist. -/
def demoAmassConfig : Config :=
  ⟨"amass", "", [], [demoAmass], [demoAmass]⟩

/-- A tool with neither binary nor condition whose command list holds an empty
`Command`, then one with both `cmd` and `or`, then a single command. -/
def demoMixed : Tool :=
  ⟨"mixed", "", [demoNeither, demoBoth, ⟨"echo after", []⟩], "", "", ""⟩

/-- A configuration with the single tool `demoMixed`, which is also its single
wordlist. -/
def demoMixedConfig : Config :=
  ⟨"mixed", "", [], [demoMixed], [demoMixed]⟩

/-- A configuration with the single install `demoGo`. -/
def demoConfig : Config :=
  ⟨"demo", "", [demoGo], [], []⟩

/-! ## Basic facts about traces -/

section TraceLemmas

@[simp] theorem attempts_nil : attempts [] = [] := rfl

@[simp] theorem attempts_append (a b : List Event) :
    attempts (a ++ b) = attempts a ++ attempts b := by
  simp [attempts, List.filterMap_append]

@[simp] theorem attempts_print (c : Color) (t : String) (tr : List Event) :
    attempts (Event.print c t :: tr) = attempts tr := rfl

@[simp] theorem attempts_println (c : Color) (t : String) (tr : List Event) :
    attempts (Event.println c t :: tr) = attempts tr := rfl

@[simp] theorem attempts_printf (c : Color) (f : String) (a : List String) (tr : List Event) :
    attempts (Event.printf c f a :: tr) = attempts tr := rfl

@[simp] theorem attempts_spawn (c : String) (tr : List Event) :
    attempts (Event.spawn c :: tr) = attempts tr := rfl

@[simp] theorem attempts_exec (c : String) (d : Bool) (e : Option String) (tr : List Event) :
    attempts (Event.exec c d e :: tr) = (c, e.isNone) :: attempts tr := rfl

@[simp] theorem attempts_indent (tr : List Event) : attempts (indent :: tr) = attempts tr := rfl

@[simp] theorem spawns_nil : spawns [] = [] := rfl

@[simp] theorem spawns_append (a b : List Event) : spawns (a ++ b) = spawns a ++ spawns b := by
  simp [spawns, List.filterMap_append]

@[simp] theorem spawns_print (c : Color) (t : String) (tr : List Event) :
    spawns (Event.print c t :: tr) = spawns tr := rfl

@[simp] theorem spawns_println (c : Color) (t : String) (tr : List Event) :
    spawns (Event.println c t :: tr) = spawns tr := rfl

@[simp] theorem spawns_printf (c : Color) (f : String) (a : List String) (tr : List Event) :
    spawns (Event.printf c f a :: tr) = spawns tr := rfl

@[simp] theorem spawns_spawn (c : String) (tr : List Event) :
    spawns (Event.spawn c :: tr) = c :: spawns tr := rfl

@[simp] theorem spawns_exec (c : String) (d : Bool) (e : Option String) (tr : List Event) :
    spawns (Event.exec c d e :: tr) = spawns tr := rfl

@[simp] theorem spawns_indent (tr : List Event) : spawns (indent :: tr) = spawns tr := rfl

@[simp] theorem effects_nil : effects [] = [] := rfl

@[simp] theorem effects_append (a b : List Event) :
    effects (a ++ b) = effects a ++ effects b := by
  simp [effects, List.filter_append]

@[simp] theorem effects_print (c : Color) (t : String) (tr : List Event) :
    effects (Event.print c t :: tr) = effects tr := rfl

@[simp] theorem effects_println (c : Color) (t : String) (tr : List Event) :
    effects (Event.println c t :: tr) = effects tr := rfl

@[simp] theorem effects_printf (c : Color) (f : String) (a : List String) (tr : List Event) :
    effects (Event.printf c f a :: tr) = effects tr := rfl

@[simp] theorem effects_spawn (c : String) (tr : List Event) :
    effects (Event.spawn c :: tr) = Event.spawn c :: effects tr := rfl

@[simp] theorem effects_exec (c : String) (d : Bool) (e : Option String) (tr : List Event) :
    effects (Event.exec c d e :: tr) = Event.exec c d e :: effects tr := rfl

@[simp] theorem effects_indent (tr : List Event) : effects (indent :: tr) = effects tr := rfl

@[simp] theorem effects_entityHeader (tool : Tool) : effects (entityHeader tool) = [] := rfl

/-- A trace without effects has no executor call and no subprocess. -/
theorem attempts_spawns_of_effects_nil (tr : List Event) (h : effects tr = []) :
    attempts tr = [] ∧ spawns tr = [] := by
  induction tr with
  | nil => simp
  | cons e tr ih =>
    cases e <;> simp_all

end TraceLemmas

/-! ## The executor -/

section ExecutorLemmas

variable {σ : Type}

/-- A string of white space only is trimmed to the empty string. -/
theorem TrimSpace_of_blank (command : String) (h : ∀ c ∈ command.data, isSpace c = true) :
    TrimSpace command = "" := by
  have h1 : command.data.dropWhile isSpace = [] := by
    rw [List.dropWhile_eq_nil_iff]
    exact h
  simp [TrimSpace, h1]

/-- Every call of the executor is one attempt, successful iff it returns nil. -/
@[simp] theorem attempts_executeShellCommand (w : World σ) (s : σ) (command : String)
    (dryRun : Bool) :
    attempts (executeShellCommand w s command dryRun).trace =
      [(command, (executeShellCommand w s command dryRun).val.isNone)] := by
  unfold executeShellCommand
  split_ifs <;> simp

@[simp] theorem attempts_executeCommand (w : World σ) (s : σ) (command : String) :
    attempts (executeCommand w s command).trace =
      [(command, (executeCommand w s command).val.isNone)] := by
  simp [executeCommand]

end ExecutorLemmas

/-! ## Dry run -/

section DryRun

variable {σ : Type}

theorem installCommands_dry (w : World σ) (s : σ) (commands : List String) :
    (installCommands w s true commands).state = s ∧
      effects (installCommands w s true commands).trace = [] := by
  induction commands with
  | nil => simp [installCommands]
  | cons command rest ih => simp [installCommands, ih]

theorem installManagers_dry (w : World σ) (s : σ) (managers : List (String × List String)) :
    (installManagers w s true managers).state = s ∧
      effects (installManagers w s true managers).trace = [] := by
  induction managers with
  | nil => simp [installManagers]
  | cons m rest ih =>
    obtain ⟨pkgManager, commands⟩ := m
    unfold installManagers
    split_ifs
    · simp [installCommands_dry]
    · exact ih

theorem installBody_dry (w : World σ) (s : σ) (install : Install) :
    (installBody w s true install).state = s ∧
      effects (installBody w s true install).trace = [] := by
  have h := installManagers_dry w s install.Commands
  unfold installBody
  refine ⟨h.1, ?_⟩
  simp only [effects_append, h.2]
  split_ifs <;> simp

theorem installLoop_dry (w : World σ) (s : σ) (installs : List Install) :
    (installLoop w s true installs).state = s ∧
      effects (installLoop w s true installs).trace = [] := by
  induction installs with
  | nil => simp [installLoop]
  | cons install rest ih =>
    have h := installBody_dry w s install
    simp [installLoop, h.1, h.2, ih]

theorem executeInstalls_dry (w : World σ) (s : σ) (config : Config) :
    (executeInstalls w s config true).state = s ∧
      effects (executeInstalls w s config true).trace = [] := by
  have h := installLoop_dry w s config.Installs
  unfold executeInstalls
  split_ifs <;> simp_all

theorem toolOrLoop_dry (w : World σ) (s : σ) (alternatives : List String) :
    (toolOrLoop w s true alternatives).state = s ∧
      effects (toolOrLoop w s true alternatives).trace = [] := by
  induction alternatives with
  | nil => simp [toolOrLoop]
  | cons orCmd rest ih => simp [toolOrLoop, ih]

theorem toolCommand_dry (w : World σ) (s : σ) (command : Command) :
    (toolCommand w s true command).state = s ∧
      effects (toolCommand w s true command).trace = [] := by
  have h := toolOrLoop_dry w s command.Or
  unfold toolCommand
  split_ifs <;> simp_all

theorem toolCommands_dry (w : World σ) (s : σ) (commands : List Command) :
    (toolCommands w s true commands).state = s ∧
      effects (toolCommands w s true commands).trace = [] := by
  induction commands with
  | nil => simp [toolCommands]
  | cons command rest ih =>
    have h := toolCommand_dry w s command
    simp [toolCommands, h.1, h.2, ih]

theorem toolBody_dry (w : World σ) (s : σ) (skipAvailable : Bool) (skipTools : List String)
    (tool : Tool) :
    (toolBody w s true skipAvailable skipTools tool).state = s ∧
      effects (toolBody w s true skipAvailable skipTools tool).trace = [] := by
  have h := toolCommands_dry w s tool.Commands
  unfold toolBody
  split_ifs <;> simp_all

theorem toolLoop_dry (w : World σ) (s : σ) (skipAvailable : Bool) (skipTools : List String)
    (tools : List Tool) :
    (toolLoop w s true skipAvailable skipTools tools).state = s ∧
      effects (toolLoop w s true skipAvailable skipTools tools).trace = [] := by
  induction tools with
  | nil => simp [toolLoop]
  | cons tool rest ih =>
    have h := toolBody_dry w s skipAvailable skipTools tool
    simp [toolLoop, h.1, h.2, ih]

theorem executeTools_dry (w : World σ) (s : σ) (config : Config) (skipAvailable : Bool)
    (skipTools : List String) :
    (executeTools w s config true skipAvailable skipTools).state = s ∧
      effects (executeTools w s config true skipAvailable skipTools).trace = [] := by
  have h := toolLoop_dry w s skipAvailable skipTools config.Tools
  unfold executeTools
  split_ifs <;> simp_all

theorem wordlistOrLoop_dry (w : World σ) (s : σ) (alternatives : List String) :
    (wordlistOrLoop w s true alternatives).state = s ∧
      effects (wordlistOrLoop w s true alternatives).trace = [] := by
  induction alternatives with
  | nil => simp [wordlistOrLoop]
  | cons orCmd rest ih => simp [wordlistOrLoop, ih]

theorem wordlistCommand_dry (w : World σ) (s : σ) (command : Command) :
    (wordlistCommand w s true command).state = s ∧
      effects (wordlistCommand w s true command).trace = [] := by
  have h := wordlistOrLoop_dry w s command.Or
  unfold wordlistCommand
  split_ifs <;> simp_all

theorem wordlistCommands_dry (w : World σ) (s : σ) (commands : List Command) :
    (wordlistCommands w s true commands).state = s ∧
      effects (wordlistCommands w s true commands).trace = [] := by
  induction commands with
  | nil => simp [wordlistCommands]
  | cons command rest ih =>
    have h := wordlistCommand_dry w s command
    simp [wordlistCommands, h.1, h.2, ih]

theorem wordlistBody_dry (w : World σ) (s : σ) (skipAvailable : Bool)
    (skipTools : List String) (wordlist : Tool) :
    (wordlistBody w s true skipAvailable skipTools wordlist).state = s ∧
      effects (wordlistBody w s true skipAvailable skipTools wordlist).trace = [] := by
  have h := wordlistCommands_dry w s wordlist.Commands
  unfold wordlistBody
  split_ifs <;> simp_all

theorem wordlistLoop_dry (w : World σ) (s : σ) (skipAvailable : Bool)
    (skipTools : List String) (wordlists : List Tool) :
    (wordlistLoop w s true skipAvailable skipTools wordlists).state = s ∧
      effects (wordlistLoop w s true skipAvailable skipTools wordlists).trace = [] := by
  induction wordlists with
  | nil => simp [wordlistLoop]
  | cons wordlist rest ih =>
    have h := wordlistBody_dry w s skipAvailable skipTools wordlist
    simp [wordlistLoop, h.1, h.2, ih]

theorem executeWordlists_dry (w : World σ) (s : σ) (config : Config) (skipAvailable : Bool)
    (skipTools : List String) :
    (executeWordlists w s config true skipAvailable skipTools).state = s ∧
      effects (executeWordlists w s config true skipAvailable skipTools).trace = [] := by
  have h := wordlistLoop_dry w s skipAvailable skipTools config.Wordlists
  unfold executeWordlists
  split_ifs <;> simp_all

end DryRun

/-! ## The command loops outside dry run -/

section Loops

variable {σ : Type}

/-- The wordlist pass runs its fallback lists exactly as the tool pass does. -/
theorem wordlistOrLoop_eq (w : World σ) (dryRun : Bool) (alternatives : List String) (s : σ) :
    wordlistOrLoop w s dryRun alternatives = toolOrLoop w s dryRun alternatives := by
  induction alternatives generalizing s with
  | nil => rfl
  | cons orCmd rest ih =>
    cases dryRun
    · simp only [wordlistOrLoop, toolOrLoop, executeCommand, ih]
    · simp [wordlistOrLoop, toolOrLoop, ih]

/-- The wordlist pass runs one `Command` exactly as the tool pass does. -/
theorem wordlistCommand_eq (w : World σ) (dryRun : Bool) (command : Command) (s : σ) :
    wordlistCommand w s dryRun command = toolCommand w s dryRun command := by
  cases dryRun
  · simp only [wordlistCommand, toolCommand, executeCommand, wordlistOrLoop_eq]
  · simp [wordlistCommand, toolCommand, wordlistOrLoop_eq]

/-- The wordlist pass runs a command list exactly as the tool pass does. -/
theorem wordlistCommands_eq (w : World σ) (dryRun : Bool) (commands : List Command) (s : σ) :
    wordlistCommands w s dryRun commands = toolCommands w s dryRun commands := by
  induction commands generalizing s with
  | nil => rfl
  | cons command rest ih => simp only [wordlistCommands, toolCommands, wordlistCommand_eq, ih]

/-- Pairing every element with a flag and projecting back is the identity. -/
theorem map_fst_map_pair (l : List String) (b : Bool) :
    (l.map (fun a => (a, b))).map Prod.fst = l := by
  induction l with
  | nil => rfl
  | cons a rest ih => simpa using ih

/-- The fallback loop outside dry run: either every alternative was attempted
and failed, or the attempts are the failed alternatives before the first
success followed by that success, and the rest is untried. -/
theorem toolOrLoop_attempts (w : World σ) (alternatives : List String) (s : σ) :
    (attempts (toolOrLoop w s false alternatives).trace =
        alternatives.map (fun a => (a, false)) ∧
      (toolOrLoop w s false alternatives).val = false) ∨
    (∃ failed b untried, alternatives = failed ++ b :: untried ∧
      attempts (toolOrLoop w s false alternatives).trace =
        failed.map (fun a => (a, false)) ++ [(b, true)] ∧
      (toolOrLoop w s false alternatives).val = true) := by
  induction alternatives generalizing s with
  | nil => left; simp [toolOrLoop]
  | cons orCmd rest ih =>
    cases hv : (executeShellCommand w s orCmd false).val with
    | none =>
      right
      refine ⟨[], orCmd, rest, rfl, ?_, ?_⟩ <;> simp [toolOrLoop, hv]
    | some err =>
      rcases ih (executeShellCommand w s orCmd false).state with h | ⟨failed, b, untried, h1, h2, h3⟩
      · left
        simp [toolOrLoop, hv, h.1, h.2]
      · right
        refine ⟨orCmd :: failed, b, untried, by simp [h1], ?_, ?_⟩ <;>
          simp [toolOrLoop, hv, h2, h3]

/-- A `Command` with a non-empty `cmd` is one attempt of that `cmd`. -/
theorem toolCommand_attempts_cmd (w : World σ) (s : σ) (command : Command)
    (h : command.Cmd ≠ "") :
    attempts (toolCommand w s false command).trace =
      [(command.Cmd, (executeShellCommand w s command.Cmd false).val.isNone)] := by
  cases hv : (executeShellCommand w s command.Cmd false).val <;>
    simp [toolCommand, h, hv]

/-- A `Command` with an empty `cmd` attempts what its fallback loop attempts. -/
theorem toolCommand_attempts_or (w : World σ) (s : σ) (command : Command)
    (h : command.Cmd = "") :
    attempts (toolCommand w s false command).trace =
      attempts (toolOrLoop w s false command.Or).trace := by
  cases hO : command.Or with
  | nil => simp [toolCommand, h, hO, toolOrLoop]
  | cons a rest =>
    cases hv : (toolOrLoop w s false (a :: rest)).val <;>
      simp [toolCommand, h, hO, hv]

/-- The attempts of a command list split into one segment per `Command`, in
declared order: a single `cmd` is a segment of exactly that one attempt, a
fallback list a segment that stops at its first success. -/
theorem toolCommands_segments (w : World σ) (commands : List Command) (s : σ) :
    AttemptsFollow commands (attempts (toolCommands w s false commands).trace) := by
  induction commands generalizing s with
  | nil => exact ⟨[], by simp [toolCommands], List.Forall₂.nil⟩
  | cons command rest ih =>
    obtain ⟨segments, h1, h2⟩ := ih (toolCommand w s false command).state
    refine ⟨attempts (toolCommand w s false command).trace :: segments, ?_,
      List.Forall₂.cons ⟨?_, ?_⟩ h2⟩
    · simp [toolCommands, h1]
    · intro h
      simp [toolCommand_attempts_cmd w s command h]
    · intro h
      rw [toolCommand_attempts_or w s command h]
      rcases toolOrLoop_attempts w command.Or s with h3 | ⟨failed, b, untried, h3, h4, _⟩
      · exact Or.inl h3.1
      · exact Or.inr ⟨failed, b, untried, h3, h4⟩

/-- The strict loop of an install outside dry run: either every command was
attempted and succeeded, or the attempts are the commands that succeeded
before the first failure followed by that failure, and the rest is not run. -/
theorem installCommands_attempts (w : World σ) (commands : List String) (s : σ) :
    attempts (installCommands w s false commands).trace =
        commands.map (fun c => (c, true)) ∨
    (∃ succeeded b notRun, commands = succeeded ++ b :: notRun ∧
      attempts (installCommands w s false commands).trace =
        succeeded.map (fun c => (c, true)) ++ [(b, false)]) := by
  induction commands generalizing s with
  | nil => left; simp [installCommands]
  | cons command rest ih =>
    cases hv : (executeCommand w s command).val with
    | some err =>
      right
      refine ⟨[], command, rest, rfl, ?_⟩
      simp [installCommands, hv]
    | none =>
      rcases ih (executeCommand w s command).state with h | ⟨succeeded, b, notRun, h1, h2⟩
      · left
        simp [installCommands, hv, h]
      · right
        refine ⟨command :: succeeded, b, notRun, by simp [h1], ?_⟩
        simp [installCommands, hv, h2]

/-- `checkPackageManager` is a search-path lookup of the manager's name. -/
theorem checkPackageManager_eq (w : World σ) (s : σ) (pkgManager : String) :
    checkPackageManager w s pkgManager = w.lookPath s pkgManager := by
  unfold checkPackageManager
  split_ifs <;> simp_all

/-- The manager loop in terms of the first manager present. -/
theorem installManagers_find (w : World σ) (s : σ) (dryRun : Bool)
    (managers : List (String × List String)) :
    installManagers w s dryRun managers =
      match managers.find? (fun p => checkPackageManager w s p.1) with
      | none => ⟨s, [], false⟩
      | some p =>
        ⟨(installCommands w s dryRun p.2).state,
          [indent, Event.printf Color.yellow "using %s\n" [p.1]] ++
            (installCommands w s dryRun p.2).trace, true⟩ := by
  induction managers with
  | nil => rfl
  | cons m rest ih =>
    obtain ⟨pkgManager, commands⟩ := m
    cases hc : checkPackageManager w s pkgManager
    · simp only [installManagers, List.find?_cons, hc]
      exact ih
    · simp [installManagers, List.find?_cons, hc]

/-- When every `Command` has a non-empty `cmd`, attempts that follow the list
are one attempt of each `cmd`, in declared order. -/
theorem AttemptsFollow.all_single (commands : List Command) (att : List (String × Bool))
    (h : AttemptsFollow commands att) (hs : ∀ c ∈ commands, c.Cmd ≠ "") :
    att.map Prod.fst = commands.map Command.Cmd := by
  obtain ⟨segments, h1, h2⟩ := h
  subst h1
  induction h2 with
  | nil => rfl
  | @cons command segment commands1 segments1 hd _ ih =>
    have h3 := hd.1 (hs command (by simp))
    have h4 := ih (fun c hc => hs c (by simp [hc]))
    simp [h3, h4]

end Loops

/-! ## The branches of the tool and wordlist bodies -/

section Branches

variable {σ : Type}

/-- `contains` is list membership. -/
theorem contains_iff (slice : List String) (item : String) :
    contains slice item = true ↔ item ∈ slice := by
  induction slice with
  | nil => simp [contains]
  | cons s rest ih =>
    by_cases h : s = item
    · simp [contains, h]
    · have h1 : ¬ item = s := fun e => h e.symm
      simp [contains, h, h1, ih]

theorem toolBody_of_name (w : World σ) (s : σ) (dryRun skipAvailable : Bool)
    (skipTools : List String) (tool : Tool) (h : contains skipTools tool.Name = true) :
    toolBody w s dryRun skipAvailable skipTools tool = ⟨s, skippedByName tool, ()⟩ := by
  simp [toolBody, h, skippedByName]

theorem toolBody_of_available (w : World σ) (s : σ) (dryRun skipAvailable : Bool)
    (skipTools : List String) (tool : Tool) (hn : contains skipTools tool.Name = false)
    (hb : tool.Binary ≠ "") (hp : checkBinaryExists w s tool.Binary = true) :
    toolBody w s dryRun skipAvailable skipTools tool =
      ⟨s, skippedAvailable skipAvailable tool, ()⟩ := by
  simp [toolBody, hn, hb, hp, skippedAvailable]

theorem toolBody_of_condition (w : World σ) (s : σ) (dryRun skipAvailable : Bool)
    (skipTools : List String) (tool : Tool) (hn : contains skipTools tool.Name = false)
    (hb : tool.Binary = "" ∨ checkBinaryExists w s tool.Binary = false)
    (hc : tool.Condition ≠ "") (hv : checkCondition w s tool.Condition = false) :
    toolBody w s dryRun skipAvailable skipTools tool = ⟨s, skippedCondition tool, ()⟩ := by
  rcases hb with hb | hb <;> simp [toolBody, hn, hb, hc, hv, skippedCondition]

theorem toolBody_of_executed (w : World σ) (s : σ) (dryRun skipAvailable : Bool)
    (skipTools : List String) (tool : Tool) (hn : contains skipTools tool.Name = false)
    (hb : tool.Binary = "" ∨ checkBinaryExists w s tool.Binary = false)
    (hc : tool.Condition = "" ∨ checkCondition w s tool.Condition = true) :
    toolBody w s dryRun skipAvailable skipTools tool =
      ⟨(toolCommands w s dryRun tool.Commands).state,
        entityHeader tool ++ (toolCommands w s dryRun tool.Commands).trace ++
          [Event.printf Color.plain "\n" []], ()⟩ := by
  rcases hb with hb | hb <;> rcases hc with hc | hc <;> simp [toolBody, hn, hb, hc]

theorem wordlistBody_of_name (w : World σ) (s : σ) (dryRun skipAvailable : Bool)
    (skipTools : List String) (wordlist : Tool)
    (h : contains skipTools wordlist.Name = true) :
    wordlistBody w s dryRun skipAvailable skipTools wordlist =
      ⟨s, skippedByName wordlist, ()⟩ := by
  simp [wordlistBody, h, skippedByName]

/-- The availability branch of the wordlist body changes nothing and prints
the header, an indent and one message, which is not the skip-by-name one. -/
theorem wordlistBody_of_available (w : World σ) (s : σ) (dryRun skipAvailable : Bool)
    (skipTools : List String) (wordlist : Tool)
    (hn : contains skipTools wordlist.Name = false)
    (ha : (wordlist.Binary ≠ "" ∧ checkBinaryExists w s wordlist.Binary = true) ∨
      (wordlist.Path ≠ "" ∧ checkPathExists w s wordlist.Path = true)) :
    ∃ c f a, f ≠ "skipping - %s specified in -st\n\n" ∧
      wordlistBody w s dryRun skipAvailable skipTools wordlist =
        ⟨s, entityHeader wordlist ++ [indent, Event.printf c f a], ()⟩ := by
  have h1 : ((wordlist.Binary ≠ "" && checkBinaryExists w s wordlist.Binary) ||
      (wordlist.Path ≠ "" && checkPathExists w s wordlist.Path)) = true := by
    rcases ha with ⟨h2, h3⟩ | ⟨h2, h3⟩ <;> simp [h2, h3]
  unfold wordlistBody
  rw [if_neg (by simp [hn]), if_pos h1]
  by_cases hb : wordlist.Binary ≠ "" <;> cases skipAvailable <;> simp [hb]

theorem wordlistBody_of_condition (w : World σ) (s : σ) (dryRun skipAvailable : Bool)
    (skipTools : List String) (wordlist : Tool)
    (hn : contains skipTools wordlist.Name = false)
    (hb : wordlist.Binary = "" ∨ checkBinaryExists w s wordlist.Binary = false)
    (hp : wordlist.Path = "" ∨ checkPathExists w s wordlist.Path = false)
    (hc : wordlist.Condition ≠ "") (hv : checkCondition w s wordlist.Condition = false) :
    wordlistBody w s dryRun skipAvailable skipTools wordlist =
      ⟨s, skippedCondition wordlist, ()⟩ := by
  rcases hb with hb | hb <;> rcases hp with hp | hp <;>
    simp [wordlistBody, hn, hb, hp, hc, hv, skippedCondition]

theorem wordlistBody_of_executed (w : World σ) (s : σ) (dryRun skipAvailable : Bool)
    (skipTools : List String) (wordlist : Tool)
    (hn : contains skipTools wordlist.Name = false)
    (hb : wordlist.Binary = "" ∨ checkBinaryExists w s wordlist.Binary = false)
    (hp : wordlist.Path = "" ∨ checkPathExists w s wordlist.Path = false)
    (hc : wordlist.Condition = "" ∨ checkCondition w s wordlist.Condition = true) :
    wordlistBody w s dryRun skipAvailable skipTools wordlist =
      ⟨(wordlistCommands w s dryRun wordlist.Commands).state,
        entityHeader wordlist ++ (wordlistCommands w s dryRun wordlist.Commands).trace ++
          [Event.printf Color.plain "\n" []], ()⟩ := by
  rcases hb with hb | hb <;> rcases hp with hp | hp <;> rcases hc with hc | hc <;>
    simp [wordlistBody, hn, hb, hp, hc]

theorem toolLoop_append (w : World σ) (dryRun skipAvailable : Bool) (skipTools : List String)
    (pre post : List Tool) (s : σ) :
    toolLoop w s dryRun skipAvailable skipTools (pre ++ post) =
      ⟨(toolLoop w (toolLoop w s dryRun skipAvailable skipTools pre).state dryRun skipAvailable
          skipTools post).state,
        (toolLoop w s dryRun skipAvailable skipTools pre).trace ++
          (toolLoop w (toolLoop w s dryRun skipAvailable skipTools pre).state dryRun
            skipAvailable skipTools post).trace, ()⟩ := by
  induction pre generalizing s with
  | nil => simp [toolLoop]
  | cons tool rest ih => simp [toolLoop, ih]

theorem wordlistLoop_append (w : World σ) (dryRun skipAvailable : Bool)
    (skipTools : List String) (pre post : List Tool) (s : σ) :
    wordlistLoop w s dryRun skipAvailable skipTools (pre ++ post) =
      ⟨(wordlistLoop w (wordlistLoop w s dryRun skipAvailable skipTools pre).state dryRun
          skipAvailable skipTools post).state,
        (wordlistLoop w s dryRun skipAvailable skipTools pre).trace ++
          (wordlistLoop w (wordlistLoop w s dryRun skipAvailable skipTools pre).state dryRun
            skipAvailable skipTools post).trace, ()⟩ := by
  induction pre generalizing s with
  | nil => simp [wordlistLoop]
  | cons wordlist rest ih => simp [wordlistLoop, ih]

end Branches

/-! ## The passes, entity by entity and command by command -/

section Passes

variable {σ : Type}

theorem toolCommands_append (w : World σ) (dryRun : Bool) (pre post : List Command) (s : σ) :
    toolCommands w s dryRun (pre ++ post) =
      ⟨(toolCommands w (toolCommands w s dryRun pre).state dryRun post).state,
        (toolCommands w s dryRun pre).trace ++
          (toolCommands w (toolCommands w s dryRun pre).state dryRun post).trace, ()⟩ := by
  induction pre generalizing s with
  | nil => simp [toolCommands]
  | cons command rest ih => simp [toolCommands, ih]

theorem installLoop_append (w : World σ) (dryRun : Bool) (pre post : List Install) (s : σ) :
    installLoop w s dryRun (pre ++ post) =
      ⟨(installLoop w (installLoop w s dryRun pre).state dryRun post).state,
        (installLoop w s dryRun pre).trace ++
          (installLoop w (installLoop w s dryRun pre).state dryRun post).trace, ()⟩ := by
  induction pre generalizing s with
  | nil => simp [installLoop]
  | cons install rest ih => simp [installLoop, ih]

/-- The executor calls and final state of the install pass are those of its
loop over `config.Installs`. -/
theorem executeInstalls_loop (w : World σ) (s : σ) (config : Config) (dryRun : Bool) :
    attempts (executeInstalls w s config dryRun).trace =
        attempts (installLoop w s dryRun config.Installs).trace ∧
      (executeInstalls w s config dryRun).state =
        (installLoop w s dryRun config.Installs).state := by
  unfold executeInstalls
  split_ifs with h
  · rw [List.length_eq_zero] at h
    simp [h, installLoop]
  · simp

/-- The executor calls and final state of the tool pass are those of its loop
over `config.Tools`. -/
theorem executeTools_loop (w : World σ) (s : σ) (config : Config)
    (dryRun skipAvailable : Bool) (skipTools : List String) :
    attempts (executeTools w s config dryRun skipAvailable skipTools).trace =
        attempts (toolLoop w s dryRun skipAvailable skipTools config.Tools).trace ∧
      (executeTools w s config dryRun skipAvailable skipTools).state =
        (toolLoop w s dryRun skipAvailable skipTools config.Tools).state := by
  unfold executeTools
  by_cases h : config.Tools.length = 0
  · rw [if_pos h]
    rw [List.length_eq_zero] at h
    simp [h, toolLoop]
  · rw [if_neg h]
    cases dryRun <;> simp

/-- The executor calls and final state of the wordlist pass are those of its
loop over `config.Wordlists`. -/
theorem executeWordlists_loop (w : World σ) (s : σ) (config : Config)
    (dryRun skipAvailable : Bool) (skipTools : List String) :
    attempts (executeWordlists w s config dryRun skipAvailable skipTools).trace =
        attempts (wordlistLoop w s dryRun skipAvailable skipTools config.Wordlists).trace ∧
      (executeWordlists w s config dryRun skipAvailable skipTools).state =
        (wordlistLoop w s dryRun skipAvailable skipTools config.Wordlists).state := by
  unfold executeWordlists
  by_cases h : config.Wordlists.length = 0
  · rw [if_pos h]
    rw [List.length_eq_zero] at h
    simp [h, wordlistLoop]
  · rw [if_neg h]
    cases dryRun <;> simp

/-- The install pass around one install: the executor calls are those of the
installs before it, its own, and those of the installs after it. -/
theorem executeInstalls_at_install (w : World σ) (s : σ) (config : Config) (dryRun : Bool)
    (before after : List Install) (install : Install) (sI : σ)
    (hI : config.Installs = before ++ install :: after)
    (hsI : sI = (installLoop w s dryRun before).state) :
    attempts (executeInstalls w s config dryRun).trace =
        attempts (installLoop w s dryRun before).trace ++
          attempts (installBody w sI dryRun install).trace ++
          attempts (installLoop w (installBody w sI dryRun install).state dryRun after).trace ∧
      (executeInstalls w s config dryRun).state =
        (installLoop w (installBody w sI dryRun install).state dryRun after).state := by
  subst hsI
  rw [(executeInstalls_loop w s config dryRun).1, (executeInstalls_loop w s config dryRun).2, hI,
    installLoop_append]
  simp [installLoop]

/-- The tool pass around one tool. -/
theorem executeTools_at_tool (w : World σ) (s : σ) (config : Config)
    (dryRun skipAvailable : Bool) (skipTools : List String)
    (before after : List Tool) (tool : Tool) (sT : σ)
    (hT : config.Tools = before ++ tool :: after)
    (hsT : sT = (toolLoop w s dryRun skipAvailable skipTools before).state) :
    attempts (executeTools w s config dryRun skipAvailable skipTools).trace =
        attempts (toolLoop w s dryRun skipAvailable skipTools before).trace ++
          attempts (toolBody w sT dryRun skipAvailable skipTools tool).trace ++
          attempts (toolLoop w (toolBody w sT dryRun skipAvailable skipTools tool).state dryRun
            skipAvailable skipTools after).trace ∧
      (executeTools w s config dryRun skipAvailable skipTools).state =
        (toolLoop w (toolBody w sT dryRun skipAvailable skipTools tool).state dryRun
          skipAvailable skipTools after).state := by
  subst hsT
  rw [(executeTools_loop w s config dryRun skipAvailable skipTools).1,
    (executeTools_loop w s config dryRun skipAvailable skipTools).2, hT, toolLoop_append]
  simp [toolLoop]

/-- The wordlist pass around one wordlist. -/
theorem executeWordlists_at_wordlist (w : World σ) (s : σ) (config : Config)
    (dryRun skipAvailable : Bool) (skipTools : List String)
    (before after : List Tool) (wordlist : Tool) (sW : σ)
    (hW : config.Wordlists = before ++ wordlist :: after)
    (hsW : sW = (wordlistLoop w s dryRun skipAvailable skipTools before).state) :
    attempts (executeWordlists w s config dryRun skipAvailable skipTools).trace =
        attempts (wordlistLoop w s dryRun skipAvailable skipTools before).trace ++
          attempts (wordlistBody w sW dryRun skipAvailable skipTools wordlist).trace ++
          attempts (wordlistLoop w
            (wordlistBody w sW dryRun skipAvailable skipTools wordlist).state dryRun
            skipAvailable skipTools after).trace ∧
      (executeWordlists w s config dryRun skipAvailable skipTools).state =
        (wordlistLoop w (wordlistBody w sW dryRun skipAvailable skipTools wordlist).state
          dryRun skipAvailable skipTools after).state := by
  subst hsW
  rw [(executeWordlists_loop w s config dryRun skipAvailable skipTools).1,
    (executeWordlists_loop w s config dryRun skipAvailable skipTools).2, hW,
    wordlistLoop_append]
  simp [wordlistLoop]

/-- The command loop around one `Command`. -/
theorem toolCommands_at_command (w : World σ) (s : σ) (dryRun : Bool)
    (pre post : List Command) (command : Command) (sPre sC : σ)
    (hsPre : sPre = (toolCommands w s dryRun pre).state)
    (hsC : sC = (toolCommand w sPre dryRun command).state) :
    attempts (toolCommands w s dryRun (pre ++ command :: post)).trace =
        attempts (toolCommands w s dryRun pre).trace ++
          attempts (toolCommand w sPre dryRun command).trace ++
          attempts (toolCommands w sC dryRun post).trace ∧
      (toolCommands w s dryRun (pre ++ command :: post)).state =
        (toolCommands w sC dryRun post).state := by
  subst hsPre hsC
  rw [toolCommands_append]
  simp [toolCommands]

/-- Outside dry run a `Command` with a non-empty `cmd` leaves the state its
single executor call leaves. -/
theorem toolCommand_state_cmd (w : World σ) (s : σ) (command : Command)
    (h : command.Cmd ≠ "") :
    (toolCommand w s false command).state =
      (executeShellCommand w s command.Cmd false).state := by
  cases hv : (executeShellCommand w s command.Cmd false).val <;>
    simp [toolCommand, h, hv]

/-- A `Command` with neither `cmd` nor `or` does nothing. -/
theorem toolCommand_of_neither (w : World σ) (s : σ) (dryRun : Bool) (command : Command)
    (h1 : command.Cmd = "") (h2 : command.Or = []) :
    toolCommand w s dryRun command = ⟨s, [], ()⟩ := by
  simp [toolCommand, h1, h2]

/-- The tool pass around one `Command` of an executed tool. -/
theorem executeTools_at_command (w : World σ) (s : σ) (config : Config)
    (skipAvailable : Bool) (skipTools : List String)
    (before after : List Tool) (tool : Tool) (pre post : List Command) (command : Command)
    (sT sPre sC sPost : σ)
    (hT : config.Tools = before ++ tool :: after)
    (hC : tool.Commands = pre ++ command :: post)
    (hsT : sT = (toolLoop w s false skipAvailable skipTools before).state)
    (hn : contains skipTools tool.Name = false)
    (hb : tool.Binary = "" ∨ checkBinaryExists w sT tool.Binary = false)
    (hc : tool.Condition = "" ∨ checkCondition w sT tool.Condition = true)
    (hsPre : sPre = (toolCommands w sT false pre).state)
    (hsC : sC = (toolCommand w sPre false command).state)
    (hsPost : sPost = (toolCommands w sC false post).state) :
    attempts (executeTools w s config false skipAvailable skipTools).trace =
      attempts (toolLoop w s false skipAvailable skipTools before).trace ++
        attempts (toolCommands w sT false pre).trace ++
        attempts (toolCommand w sPre false command).trace ++
        attempts (toolCommands w sC false post).trace ++
        attempts (toolLoop w sPost false skipAvailable skipTools after).trace := by
  have h1 := executeTools_at_tool w s config false skipAvailable skipTools before after tool sT
    hT hsT
  have h2 := toolCommands_at_command w sT false pre post command sPre sC hsPre hsC
  rw [h1.1, toolBody_of_executed w sT false skipAvailable skipTools tool hn hb hc, hC]
  simp only [attempts_append, h2.1, h2.2, ← hsPost]
  simp [entityHeader]

/-- The wordlist pass around one `Command` of an executed wordlist. -/
theorem executeWordlists_at_command (w : World σ) (s : σ) (config : Config)
    (skipAvailable : Bool) (skipTools : List String)
    (before after : List Tool) (wordlist : Tool) (pre post : List Command)
    (command : Command) (sW sPre sC sPost : σ)
    (hW : config.Wordlists = before ++ wordlist :: after)
    (hC : wordlist.Commands = pre ++ command :: post)
    (hsW : sW = (wordlistLoop w s false skipAvailable skipTools before).state)
    (hn : contains skipTools wordlist.Name = false)
    (hb : wordlist.Binary = "" ∨ checkBinaryExists w sW wordlist.Binary = false)
    (hp : wordlist.Path = "" ∨ checkPathExists w sW wordlist.Path = false)
    (hc : wordlist.Condition = "" ∨ checkCondition w sW wordlist.Condition = true)
    (hsPre : sPre = (wordlistCommands w sW false pre).state)
    (hsC : sC = (wordlistCommand w sPre false command).state)
    (hsPost : sPost = (wordlistCommands w sC false post).state) :
    attempts (executeWordlists w s config false skipAvailable skipTools).trace =
      attempts (wordlistLoop w s false skipAvailable skipTools before).trace ++
        attempts (wordlistCommands w sW false pre).trace ++
        attempts (wordlistCommand w sPre false command).trace ++
        attempts (wordlistCommands w sC false post).trace ++
        attempts (wordlistLoop w sPost false skipAvailable skipTools after).trace := by
  have h1 := executeWordlists_at_wordlist w s config false skipAvailable skipTools before after
    wordlist sW hW hsW
  simp only [wordlistCommands_eq, wordlistCommand_eq] at hsPre hsC hsPost ⊢
  have h2 := toolCommands_at_command w sW false pre post command sPre sC hsPre hsC
  rw [h1.1, wordlistBody_of_executed w sW false skipAvailable skipTools wordlist hn hb hp hc,
    hC, wordlistCommands_eq]
  simp only [attempts_append, h2.1, h2.2, ← hsPost]
  simp [entityHeader]

end Passes

/-! ## The claims -/

section Claims

variable {σ : Type}

/-- C1: a tool whose declared binary is non-empty and present on the search
path, and a wordlist whose declared binary is non-empty and present or whose
declared path is non-empty and exists, has none of its commands invoked, for
every value of the dry-run flag and of the skip-available flag.  The entity
sits anywhere in its list and is looked at in the state the entities before it
left.  Its loop body leaves the state as it is and makes no executor call and
starts no subprocess; the two values of the skip-available flag give traces
that agree up to their last event, the message; and the executor calls and
subprocesses of the whole pass are those of the entities before it followed by
those of the entities after it, run from the same state. -/
theorem C1_available_entity_runs_no_command (w : World σ) (s : σ)
    (dryRun skipAvailable : Bool) (skipTools : List String) (config : Config)
    (toolsBefore toolsAfter : List Tool) (tool : Tool)
    (listsBefore listsAfter : List Tool) (wordlist : Tool)
    (hT : config.Tools = toolsBefore ++ tool :: toolsAfter)
    (hW : config.Wordlists = listsBefore ++ wordlist :: listsAfter)
    (htool : tool.Binary ≠ "" ∧
      checkBinaryExists w (toolLoop w s dryRun skipAvailable skipTools toolsBefore).state
        tool.Binary = true)
    (hlist :
      (wordlist.Binary ≠ "" ∧
        checkBinaryExists w (wordlistLoop w s dryRun skipAvailable skipTools listsBefore).state
          wordlist.Binary = true) ∨
      (wordlist.Path ≠ "" ∧
        checkPathExists w (wordlistLoop w s dryRun skipAvailable skipTools listsBefore).state
          wordlist.Path = true)) :
    (∀ flag : Bool,
      (toolBody w (toolLoop w s dryRun skipAvailable skipTools toolsBefore).state dryRun flag
          skipTools tool).state =
        (toolLoop w s dryRun skipAvailable skipTools toolsBefore).state ∧
      effects (toolBody w (toolLoop w s dryRun skipAvailable skipTools toolsBefore).state
          dryRun flag skipTools tool).trace = []) ∧
    (toolBody w (toolLoop w s dryRun skipAvailable skipTools toolsBefore).state dryRun true
        skipTools tool).trace.dropLast =
      (toolBody w (toolLoop w s dryRun skipAvailable skipTools toolsBefore).state dryRun false
        skipTools tool).trace.dropLast ∧
    effects (executeTools w s config dryRun skipAvailable skipTools).trace =
      effects (toolLoop w s dryRun skipAvailable skipTools toolsBefore).trace ++
        effects (toolLoop w (toolLoop w s dryRun skipAvailable skipTools toolsBefore).state
          dryRun skipAvailable skipTools toolsAfter).trace ∧
    (∀ flag : Bool,
      (wordlistBody w (wordlistLoop w s dryRun skipAvailable skipTools listsBefore).state
          dryRun flag skipTools wordlist).state =
        (wordlistLoop w s dryRun skipAvailable skipTools listsBefore).state ∧
      effects (wordlistBody w (wordlistLoop w s dryRun skipAvailable skipTools listsBefore).state
          dryRun flag skipTools wordlist).trace = []) ∧
    (wordlistBody w (wordlistLoop w s dryRun skipAvailable skipTools listsBefore).state dryRun
        true skipTools wordlist).trace.dropLast =
      (wordlistBody w (wordlistLoop w s dryRun skipAvailable skipTools listsBefore).state
        dryRun false skipTools wordlist).trace.dropLast ∧
    effects (executeWordlists w s config dryRun skipAvailable skipTools).trace =
      effects (wordlistLoop w s dryRun skipAvailable skipTools listsBefore).trace ++
        effects (wordlistLoop w
          (wordlistLoop w s dryRun skipAvailable skipTools listsBefore).state
          dryRun skipAvailable skipTools listsAfter).trace := by
  have bodyT : ∀ flag : Bool,
      toolBody w (toolLoop w s dryRun skipAvailable skipTools toolsBefore).state dryRun flag
          skipTools tool =
        ⟨(toolLoop w s dryRun skipAvailable skipTools toolsBefore).state, skippedByName tool, ()⟩ ∨
      toolBody w (toolLoop w s dryRun skipAvailable skipTools toolsBefore).state dryRun flag
          skipTools tool =
        ⟨(toolLoop w s dryRun skipAvailable skipTools toolsBefore).state,
          skippedAvailable flag tool, ()⟩ := by
    intro flag
    cases hn : contains skipTools tool.Name
    · exact Or.inr (toolBody_of_available w _ dryRun flag skipTools tool hn htool.1 htool.2)
    · exact Or.inl (toolBody_of_name w _ dryRun flag skipTools tool hn)
  have effT : ∀ flag : Bool,
      (toolBody w (toolLoop w s dryRun skipAvailable skipTools toolsBefore).state dryRun flag
          skipTools tool).state =
        (toolLoop w s dryRun skipAvailable skipTools toolsBefore).state ∧
      effects (toolBody w (toolLoop w s dryRun skipAvailable skipTools toolsBefore).state
          dryRun flag skipTools tool).trace = [] := by
    intro flag
    rcases bodyT flag with h | h <;> rw [h] <;> cases flag <;>
      simp [skippedByName, skippedAvailable]
  have bodyW : ∀ flag : Bool,
      wordlistBody w (wordlistLoop w s dryRun skipAvailable skipTools listsBefore).state dryRun
          flag skipTools wordlist =
        ⟨(wordlistLoop w s dryRun skipAvailable skipTools listsBefore).state,
          skippedByName wordlist, ()⟩ ∨
      ∃ c f a, f ≠ "skipping - %s specified in -st\n\n" ∧
        wordlistBody w (wordlistLoop w s dryRun skipAvailable skipTools listsBefore).state
            dryRun flag skipTools wordlist =
          ⟨(wordlistLoop w s dryRun skipAvailable skipTools listsBefore).state,
            entityHeader wordlist ++ [indent, Event.printf c f a], ()⟩ := by
    intro flag
    cases hn : contains skipTools wordlist.Name
    · exact Or.inr (wordlistBody_of_available w _ dryRun flag skipTools wordlist hn hlist)
    · exact Or.inl (wordlistBody_of_name w _ dryRun flag skipTools wordlist hn)
  have effW : ∀ flag : Bool,
      (wordlistBody w (wordlistLoop w s dryRun skipAvailable skipTools listsBefore).state
          dryRun flag skipTools wordlist).state =
        (wordlistLoop w s dryRun skipAvailable skipTools listsBefore).state ∧
      effects (wordlistBody w (wordlistLoop w s dryRun skipAvailable skipTools listsBefore).state
          dryRun flag skipTools wordlist).trace = [] := by
    intro flag
    rcases bodyW flag with h | ⟨c, f, a, _, h⟩ <;> rw [h] <;> simp [skippedByName]
  refine ⟨effT, ?_, ?_, effW, ?_, ?_⟩
  · cases hn : contains skipTools tool.Name
    · rw [toolBody_of_available w _ dryRun true skipTools tool hn htool.1 htool.2,
        toolBody_of_available w _ dryRun false skipTools tool hn htool.1 htool.2]
      simp [skippedAvailable, entityHeader, List.dropLast]
    · rw [toolBody_of_name w _ dryRun true skipTools tool hn,
        toolBody_of_name w _ dryRun false skipTools tool hn]
  · have hlen : ¬ config.Tools.length = 0 := by simp [hT]
    simp only [executeTools, hlen, if_false, hT, toolLoop_append, toolLoop]
    cases dryRun <;> simp [(effT skipAvailable).1, (effT skipAvailable).2]
  · cases hn : contains skipTools wordlist.Name
    · obtain ⟨c1, f1, a1, _, h1⟩ :=
        wordlistBody_of_available w _ dryRun true skipTools wordlist hn hlist
      obtain ⟨c2, f2, a2, _, h2⟩ :=
        wordlistBody_of_available w _ dryRun false skipTools wordlist hn hlist
      rw [h1, h2]
      simp [entityHeader, List.dropLast]
    · rw [wordlistBody_of_name w _ dryRun true skipTools wordlist hn,
        wordlistBody_of_name w _ dryRun false skipTools wordlist hn]
  · have hlen : ¬ config.Wordlists.length = 0 := by simp [hW]
    simp only [executeWordlists, hlen, if_false, hW, wordlistLoop_append, wordlistLoop]
    cases dryRun <;> simp [(effW skipAvailable).1, (effW skipAvailable).2]

/-- C1 in `demoWorld`: after the tool `Gau` has been installed, the tool `nmap`,
whose binary is on the search path, and the wordlist whose path exists run
nothing: the only executor call of the tool pass is the one of `Gau`. -/
theorem C1_available_entity_runs_no_command_witness :
    (demoNmap.Binary ≠ "" ∧
      checkBinaryExists demoWorld (toolLoop demoWorld 0 false false [] [demoGau]).state
        demoNmap.Binary = true) ∧
    ((demoRelease.Binary ≠ "" ∧
        checkBinaryExists demoWorld (wordlistLoop demoWorld 0 false false [] []).state
          demoRelease.Binary = true) ∨
      (demoRelease.Path ≠ "" ∧
        checkPathExists demoWorld (wordlistLoop demoWorld 0 false false [] []).state
          demoRelease.Path = true)) ∧
    effects (toolBody demoWorld (toolLoop demoWorld 0 false false [] [demoGau]).state
      false false [] demoNmap).trace = [] ∧
    effects (executeTools demoWorld 0 demoAvailable false false []).trace =
      effects (toolLoop demoWorld 0 false false [] [demoGau]).trace ++
        effects (toolLoop demoWorld (toolLoop demoWorld 0 false false [] [demoGau]).state
          false false [] []).trace ∧
    effects (executeWordlists demoWorld 0 demoAvailable false false []).trace =
      effects (wordlistLoop demoWorld 0 false false [] []).trace ++
        effects (wordlistLoop demoWorld (wordlistLoop demoWorld 0 false false [] []).state
          false false [] []).trace :=
  have h := C1_available_entity_runs_no_command demoWorld 0 false false [] demoAvailable
    [demoGau] [] demoNmap [] [] demoRelease rfl rfl (by decide) (by decide)
  ⟨by decide, by decide, (h.1 false).2, h.2.2.1, h.2.2.2.2.2⟩

/-- C2 fails as stated: the tool `amass` is executed in `demoWorld` and its
only `Command` has the `or` list `[a, b]`, in which `a` would succeed, and also
the `cmd` `true`.  The tool pass (and likewise the wordlist pass) attempts
`true` and no alternative of the `or` list, so the attempts are not the
alternatives up to the first that succeeds. -/
theorem C2_counterexample :
    demoAmassConfig.Tools = [demoAmass] ∧ demoAmass.Commands = [demoTrueOr] ∧
    demoTrueOr.Or = ["a", "b"] ∧
    (executeShellCommand demoWorld 0 "a" false).val = none ∧
    attempts (executeTools demoWorld 0 demoAmassConfig false false []).trace =
      [("true", true)] ∧
    attempts (executeWordlists demoWorld 0 demoAmassConfig false false []).trace =
      [("true", true)] ∧
    ¬ (attempts (toolCommand demoWorld 0 false demoTrueOr).trace =
          demoTrueOr.Or.map (fun a => (a, false)) ∨
        ∃ failed b untried, demoTrueOr.Or = failed ++ b :: untried ∧
          attempts (toolCommand demoWorld 0 false demoTrueOr).trace =
            failed.map (fun a => (a, false)) ++ [(b, true)]) := by
  refine ⟨rfl, rfl, rfl, by decide, by decide, by decide, ?_⟩
  have h : attempts (toolCommand demoWorld 0 false demoTrueOr).trace = [("true", true)] := by
    decide
  rw [h]
  rintro (h1 | ⟨failed, b, untried, h1, h2⟩)
  · exact absurd h1 (by decide)
  · cases failed with
    | nil =>
      simp at h2
      rw [← h2] at h1
      simp [demoTrueOr] at h1
    | cons a rest =>
      simp at h2

/-- C2 as amended: outside dry run, a fallback list whose `Command` has an
empty `cmd` is attempted in declared order, each alternative once, up to and
including the first that succeeds: either every alternative was attempted and
failed, or the attempts are the failed alternatives before the first success
followed by that success, and no later alternative is attempted.  In both
cases the loop goes on with the entity's next `Command`.  This holds of one
`Command`, and of the tool pass and the wordlist pass as a whole, for an
executed entity anywhere in its list and a `Command` anywhere in its command
list: the executor calls of the pass are those before the `Command`, then
these attempts, then those of the later commands and entities. -/
theorem C2_fallback_entry_stops_at_first_success (w : World σ) (s : σ)
    (skipAvailable : Bool) (skipTools : List String) :
    (∀ (t : σ) (command : Command) (rest : List Command), command.Cmd = "" →
      (attempts (toolCommand w t false command).trace =
          command.Or.map (fun a => (a, false)) ∨
        ∃ failed b untried, command.Or = failed ++ b :: untried ∧
          attempts (toolCommand w t false command).trace =
            failed.map (fun a => (a, false)) ++ [(b, true)]) ∧
      toolCommands w t false (command :: rest) =
        ⟨(toolCommands w (toolCommand w t false command).state false rest).state,
          (toolCommand w t false command).trace ++
            (toolCommands w (toolCommand w t false command).state false rest).trace, ()⟩ ∧
      (attempts (wordlistCommand w t false command).trace =
          command.Or.map (fun a => (a, false)) ∨
        ∃ failed b untried, command.Or = failed ++ b :: untried ∧
          attempts (wordlistCommand w t false command).trace =
            failed.map (fun a => (a, false)) ++ [(b, true)]) ∧
      wordlistCommands w t false (command :: rest) =
        ⟨(wordlistCommands w (wordlistCommand w t false command).state false rest).state,
          (wordlistCommand w t false command).trace ++
            (wordlistCommands w (wordlistCommand w t false command).state false rest).trace,
          ()⟩) ∧
    (∀ (config : Config) (before after : List Tool) (tool : Tool) (pre post : List Command)
      (command : Command) (sT sPre sC sPost : σ),
      config.Tools = before ++ tool :: after →
      tool.Commands = pre ++ command :: post →
      command.Cmd = "" →
      sT = (toolLoop w s false skipAvailable skipTools before).state →
      contains skipTools tool.Name = false →
      (tool.Binary = "" ∨ checkBinaryExists w sT tool.Binary = false) →
      (tool.Condition = "" ∨ checkCondition w sT tool.Condition = true) →
      sPre = (toolCommands w sT false pre).state →
      sC = (toolCommand w sPre false command).state →
      sPost = (toolCommands w sC false post).state →
      ∃ run : List (String × Bool),
        (run = command.Or.map (fun a => (a, false)) ∨
          ∃ failed b untried, command.Or = failed ++ b :: untried ∧
            run = failed.map (fun a => (a, false)) ++ [(b, true)]) ∧
        attempts (executeTools w s config false skipAvailable skipTools).trace =
          attempts (toolLoop w s false skipAvailable skipTools before).trace ++
            attempts (toolCommands w sT false pre).trace ++ run ++
            attempts (toolCommands w sC false post).trace ++
            attempts (toolLoop w sPost false skipAvailable skipTools after).trace) ∧
    (∀ (config : Config) (before after : List Tool) (wordlist : Tool)
      (pre post : List Command) (command : Command) (sW sPre sC sPost : σ),
      config.Wordlists = before ++ wordlist :: after →
      wordlist.Commands = pre ++ command :: post →
      command.Cmd = "" →
      sW = (wordlistLoop w s false skipAvailable skipTools before).state →
      contains skipTools wordlist.Name = false →
      (wordlist.Binary = "" ∨ checkBinaryExists w sW wordlist.Binary = false) →
      (wordlist.Path = "" ∨ checkPathExists w sW wordlist.Path = false) →
      (wordlist.Condition = "" ∨ checkCondition w sW wordlist.Condition = true) →
      sPre = (wordlistCommands w sW false pre).state →
      sC = (wordlistCommand w sPre false command).state →
      sPost = (wordlistCommands w sC false post).state →
      ∃ run : List (String × Bool),
        (run = command.Or.map (fun a => (a, false)) ∨
          ∃ failed b untried, command.Or = failed ++ b :: untried ∧
            run = failed.map (fun a => (a, false)) ++ [(b, true)]) ∧
        attempts (executeWordlists w s config false skipAvailable skipTools).trace =
          attempts (wordlistLoop w s false skipAvailable skipTools before).trace ++
            attempts (wordlistCommands w sW false pre).trace ++ run ++
            attempts (wordlistCommands w sC false post).trace ++
            attempts (wordlistLoop w sPost false skipAvailable skipTools after).trace) := by
  have key : ∀ (t : σ) (command : Command), command.Cmd = "" →
      (attempts (toolCommand w t false command).trace =
          command.Or.map (fun a => (a, false)) ∨
        ∃ failed b untried, command.Or = failed ++ b :: untried ∧
          attempts (toolCommand w t false command).trace =
            failed.map (fun a => (a, false)) ++ [(b, true)]) := by
    intro t command h
    rw [toolCommand_attempts_or w t command h]
    rcases toolOrLoop_attempts w command.Or t with h1 | ⟨failed, b, untried, h1, h2, _⟩
    · exact Or.inl h1.1
    · exact Or.inr ⟨failed, b, untried, h1, h2⟩
  refine ⟨?_, ?_, ?_⟩
  · intro t command rest h
    refine ⟨key t command h, rfl, ?_, rfl⟩
    rw [wordlistCommand_eq]
    exact key t command h
  · intro config before after tool pre post command sT sPre sC sPost hT hC h hsT hn hb hc hsPre
      hsC hsPost
    exact ⟨attempts (toolCommand w sPre false command).trace, key sPre command h,
      executeTools_at_command w s config skipAvailable skipTools before after tool pre post
        command sT sPre sC sPost hT hC hsT hn hb hc hsPre hsC hsPost⟩
  · intro config before after wordlist pre post command sW sPre sC sPost hW hC h hsW hn hb hp hc
      hsPre hsC hsPost
    refine ⟨attempts (wordlistCommand w sPre false command).trace, ?_,
      executeWordlists_at_command w s config skipAvailable skipTools before after wordlist pre
        post command sW sPre sC sPost hW hC hsW hn hb hp hc hsPre hsC hsPost⟩
    rw [wordlistCommand_eq]
    exact key sPre command h

/-- C2 as amended, in `demoWorld`: at the fallback list `[A, B, C]` where `A`
fails and `B` succeeds the attempts are `A` (failed) and `B` (succeeded), and
`C` is not attempted; and in the tool pass over `demoFull` the fallback list of
the tool `httpx` is attempted up to its second alternative between the
commands `false` and `echo done`. -/
theorem C2_fallback_entry_stops_at_first_success_witness :
    demoFallback.Cmd = "" ∧
    (attempts (toolCommand demoWorld 0 false demoFallback).trace =
        demoFallback.Or.map (fun a => (a, false)) ∨
      ∃ failed b untried, demoFallback.Or = failed ++ b :: untried ∧
        attempts (toolCommand demoWorld 0 false demoFallback).trace =
          failed.map (fun a => (a, false)) ++ [(b, true)]) ∧
    attempts (toolCommand demoWorld 0 false demoFallback).trace =
      [("fetch a", false), ("b", true)] ∧
    (∃ run : List (String × Bool),
      (run = ["fetch httpx", "go install httpx", "brew install httpx"].map
            (fun a => (a, false)) ∨
        ∃ failed b untried,
          ["fetch httpx", "go install httpx", "brew install httpx"] =
            failed ++ b :: untried ∧
          run = failed.map (fun a => (a, false)) ++ [(b, true)]) ∧
      attempts (executeTools demoWorld 0 demoFull false false []).trace =
        attempts (toolLoop demoWorld 0 false false [] []).trace ++
          attempts (toolCommands demoWorld 0 false [⟨"false", []⟩]).trace ++ run ++
          attempts (toolCommands demoWorld 3 false [⟨"echo done", []⟩]).trace ++
          attempts (toolLoop demoWorld 4 false false [] [demoNmap]).trace) ∧
    attempts (executeTools demoWorld 0 demoFull false false []).trace =
      [("false", false), ("fetch httpx", false), ("go install httpx", true),
        ("echo done", true)] :=
  ⟨rfl,
    ((C2_fallback_entry_stops_at_first_success demoWorld 0 false []).1 0 demoFallback [] rfl).1,
    by decide,
    (C2_fallback_entry_stops_at_first_success demoWorld 0 false []).2.1 demoFull [] [demoNmap]
      demoHttpx [⟨"false", []⟩] [⟨"echo done", []⟩]
      ⟨"", ["fetch httpx", "go install httpx", "brew install httpx"]⟩ 0 1 3 4
      rfl rfl rfl (by decide) (by decide) (by decide) (by decide) (by decide) (by decide)
      (by decide),
    by decide⟩

/-- C3: with `dryRun = true` the three passes, each alone and all three in the
order of `main`, start no subprocess and never reach the executor
`executeShellCommand`, for every configuration, skip-name list, skip-available
flag and system; the state of the system is left as it was. -/
theorem C3_dry_run_spawns_nothing (w : World σ) (s : σ) (config : Config)
    (skipAvailable : Bool) (skipTools : List String) :
    ((executeInstalls w s config true).state = s ∧
      attempts (executeInstalls w s config true).trace = [] ∧
      spawns (executeInstalls w s config true).trace = []) ∧
    ((executeTools w s config true skipAvailable skipTools).state = s ∧
      attempts (executeTools w s config true skipAvailable skipTools).trace = [] ∧
      spawns (executeTools w s config true skipAvailable skipTools).trace = []) ∧
    ((executeWordlists w s config true skipAvailable skipTools).state = s ∧
      attempts (executeWordlists w s config true skipAvailable skipTools).trace = [] ∧
      spawns (executeWordlists w s config true skipAvailable skipTools).trace = []) ∧
    ((executeAll w s config true skipAvailable skipTools).state = s ∧
      attempts (executeAll w s config true skipAvailable skipTools).trace = [] ∧
      spawns (executeAll w s config true skipAvailable skipTools).trace = []) := by
  have hI := executeInstalls_dry w s config
  have hT := executeTools_dry w s config skipAvailable skipTools
  have hW := executeWordlists_dry w s config skipAvailable skipTools
  have hA : (executeAll w s config true skipAvailable skipTools).state = s ∧
      effects (executeAll w s config true skipAvailable skipTools).trace = [] := by
    simp [executeAll, hI.1, hI.2, hT.1, hT.2, hW.1, hW.2]
  exact ⟨⟨hI.1, attempts_spawns_of_effects_nil _ hI.2⟩,
    ⟨hT.1, attempts_spawns_of_effects_nil _ hT.2⟩,
    ⟨hW.1, attempts_spawns_of_effects_nil _ hW.2⟩,
    ⟨hA.1, attempts_spawns_of_effects_nil _ hA.2⟩⟩

/-- C3 in `demoWorld`: the configuration `demoFull` starts thirteen subprocesses
outside dry run and none in dry run. -/
theorem C3_dry_run_spawns_nothing_witness :
    (spawns (executeAll demoWorld 0 demoFull false false []).trace).length = 13 ∧
    (executeAll demoWorld 0 demoFull true false []).state = 0 ∧
    attempts (executeAll demoWorld 0 demoFull true false []).trace = [] ∧
    spawns (executeAll demoWorld 0 demoFull true false []).trace = [] :=
  ⟨by decide, (C3_dry_run_spawns_nothing demoWorld 0 demoFull false []).2.2.2⟩

/-- C4: outside dry run, for an install anywhere in `config.Installs`, looked
at in the state the installs before it left, the commands `executeInstalls`
runs for it are: none, when no manager name of the entry is present on the
system; otherwise commands of the list of the first manager, in the order in
which the mapping is iterated, that is present, and of no other list: in
declared order, each once, up to and including the first that fails, and all
of them if none fails.  This holds of the loop body and of the whole pass,
whose executor calls are those of the installs before, then these, then those
of the installs after.  Presence of a manager is a search-path lookup of its
name. -/
theorem C4_install_runs_first_present_manager (w : World σ) (s : σ) (config : Config)
    (before after : List Install) (install : Install) (sI : σ)
    (hI : config.Installs = before ++ install :: after)
    (hsI : sI = (installLoop w s false before).state) :
    (∀ (t : σ) (pkgManager : String),
      checkPackageManager w t pkgManager = w.lookPath t pkgManager) ∧
    (match install.Commands.find? (fun p => checkPackageManager w sI p.1) with
      | none =>
        (installBody w sI false install).state = sI ∧
        effects (installBody w sI false install).trace = []
      | some p =>
        attempts (installBody w sI false install).trace = p.2.map (fun c => (c, true)) ∨
        ∃ succeeded b notRun, p.2 = succeeded ++ b :: notRun ∧
          attempts (installBody w sI false install).trace =
            succeeded.map (fun c => (c, true)) ++ [(b, false)]) ∧
    (match install.Commands.find? (fun p => checkPackageManager w sI p.1) with
      | none =>
        attempts (executeInstalls w s config false).trace =
          attempts (installLoop w s false before).trace ++
            attempts (installLoop w sI false after).trace
      | some p =>
        ∃ run : List (String × Bool),
          (run = p.2.map (fun c => (c, true)) ∨
            ∃ succeeded b notRun, p.2 = succeeded ++ b :: notRun ∧
              run = succeeded.map (fun c => (c, true)) ++ [(b, false)]) ∧
          attempts (executeInstalls w s config false).trace =
            attempts (installLoop w s false before).trace ++ run ++
              attempts (installLoop w (installBody w sI false install).state false
                after).trace) ∧
    (executeInstalls w s config false).state =
      (installLoop w (installBody w sI false install).state false after).state := by
  have hp := executeInstalls_at_install w s config false before after install sI hI hsI
  have hm := installManagers_find w sI false install.Commands
  refine ⟨checkPackageManager_eq w, ?_, ?_, hp.2⟩
  · cases hf : install.Commands.find? (fun p => checkPackageManager w sI p.1) with
    | none =>
      rw [hf] at hm
      simp only [installBody, hm]
      constructor
      · trivial
      · split_ifs <;> simp
    | some p =>
      rw [hf] at hm
      have ha : attempts (installBody w sI false install).trace =
          attempts (installCommands w sI false p.2).trace := by
        simp only [installBody, hm]
        split_ifs <;> simp
      simp only [ha]
      exact installCommands_attempts w p.2 sI
  · cases hf : install.Commands.find? (fun p => checkPackageManager w sI p.1) with
    | none =>
      rw [hf] at hm
      have hb : installBody w sI false install =
          ⟨sI, (installBody w sI false install).trace, ()⟩ := by
        simp only [installBody, hm]
      have ha : attempts (installBody w sI false install).trace = [] := by
        simp only [installBody, hm]
        split_ifs <;> simp
      have hs : (installBody w sI false install).state = sI := by rw [hb]
      simp only [hp.1, ha, hs, List.append_nil]
    | some p =>
      rw [hf] at hm
      have ha : attempts (installBody w sI false install).trace =
          attempts (installCommands w sI false p.2).trace := by
        simp only [installBody, hm]
        split_ifs <;> simp
      refine ⟨attempts (installCommands w sI false p.2).trace, ?_, ?_⟩
      · exact installCommands_attempts w p.2 sI
      · rw [hp.1, ha]

/-- C4 in `demoWorld`, for the installs `go`, `zig`, `rust` in this order: `zig`
has no manager present and adds nothing to the executor calls of the pass;
`rust`, looked at after the two commands of `go` have run, stops at its
failing second command.  The pass attempts the two commands of `apt` for `go`
and the first two of `rust`. -/
theorem C4_install_runs_first_present_manager_witness :
    (demoInstalls.Installs = [demoGo] ++ demoZig :: [demoRust] ∧
      (2 : Nat) = (installLoop demoWorld 0 false [demoGo]).state) ∧
    attempts (executeInstalls demoWorld 0 demoInstalls false).trace =
      attempts (installLoop demoWorld 0 false [demoGo]).trace ++
        attempts (installLoop demoWorld 2 false [demoRust]).trace ∧
    (demoInstalls.Installs = [demoGo, demoZig] ++ demoRust :: [] ∧
      (2 : Nat) = (installLoop demoWorld 0 false [demoGo, demoZig]).state) ∧
    (∃ run : List (String × Bool),
      (run = ["apt update", "false", "apt install rustc"].map (fun c => (c, true)) ∨
        ∃ succeeded b notRun,
          ["apt update", "false", "apt install rustc"] = succeeded ++ b :: notRun ∧
          run = succeeded.map (fun c => (c, true)) ++ [(b, false)]) ∧
      attempts (executeInstalls demoWorld 0 demoInstalls false).trace =
        attempts (installLoop demoWorld 0 false [demoGo, demoZig]).trace ++ run ++
          attempts (installLoop demoWorld (installBody demoWorld 2 false demoRust).state false
            []).trace) ∧
    attempts (executeInstalls demoWorld 0 demoInstalls false).trace =
      [("apt update", true), ("apt install golang", true), ("apt update", true),
        ("false", false)] :=
  ⟨by decide,
    (C4_install_runs_first_present_manager demoWorld 0 demoInstalls [demoGo] [demoRust]
      demoZig 2 rfl (by decide)).2.2.1,
    by decide,
    (C4_install_runs_first_present_manager demoWorld 0 demoInstalls [demoGo, demoZig] []
      demoRust 2 rfl (by decide)).2.2.1,
    by decide⟩

/-- C5: outside dry run, a tool or wordlist that reaches the command loop (not
skipped by name, by availability or by condition), anywhere in its list and
looked at in the state the entities before it left, has every `Command` with a
non-empty `cmd` attempted exactly once and in declared order, whatever
succeeds and whatever fails.  The attempts of the entity split into one segment
per `Command`, in order, and the segment of a single `cmd` is that one attempt;
when all commands are single ones they are exactly the declared commands in
order.  In the whole pass (`executeTools`, `executeWordlists`) the executor
calls are those of the entities before, then those of the entity, then those of
the entities after; and for a `Command` with a non-empty `cmd` anywhere in the
command list they are the calls before it, then the one call of its `cmd`,
succeeding or failing, then the calls of the later commands and entities.  In
particular a wordlist with a declared path that does not exist, no binary and
no condition reaches the command loop and has its commands attempted in
declared order. -/
theorem C5_failure_does_not_stop_later_commands (w : World σ) (s : σ)
    (skipAvailable : Bool) (skipTools : List String) :
    (∀ (config : Config) (before after : List Tool) (tool : Tool) (sT : σ),
      config.Tools = before ++ tool :: after →
      sT = (toolLoop w s false skipAvailable skipTools before).state →
      contains skipTools tool.Name = false →
      (tool.Binary = "" ∨ checkBinaryExists w sT tool.Binary = false) →
      (tool.Condition = "" ∨ checkCondition w sT tool.Condition = true) →
      AttemptsFollow tool.Commands
        (attempts (toolBody w sT false skipAvailable skipTools tool).trace) ∧
      ((∀ c ∈ tool.Commands, c.Cmd ≠ "") →
        (attempts (toolBody w sT false skipAvailable skipTools tool).trace).map Prod.fst =
          tool.Commands.map Command.Cmd) ∧
      attempts (executeTools w s config false skipAvailable skipTools).trace =
        attempts (toolLoop w s false skipAvailable skipTools before).trace ++
          attempts (toolBody w sT false skipAvailable skipTools tool).trace ++
          attempts (toolLoop w (toolBody w sT false skipAvailable skipTools tool).state false
            skipAvailable skipTools after).trace) ∧
    (∀ (config : Config) (before after : List Tool) (tool : Tool) (pre post : List Command)
      (command : Command) (sT sPre sC sPost : σ),
      config.Tools = before ++ tool :: after →
      tool.Commands = pre ++ command :: post →
      command.Cmd ≠ "" →
      sT = (toolLoop w s false skipAvailable skipTools before).state →
      contains skipTools tool.Name = false →
      (tool.Binary = "" ∨ checkBinaryExists w sT tool.Binary = false) →
      (tool.Condition = "" ∨ checkCondition w sT tool.Condition = true) →
      sPre = (toolCommands w sT false pre).state →
      sC = (executeShellCommand w sPre command.Cmd false).state →
      sPost = (toolCommands w sC false post).state →
      attempts (executeTools w s config false skipAvailable skipTools).trace =
        attempts (toolLoop w s false skipAvailable skipTools before).trace ++
          attempts (toolCommands w sT false pre).trace ++
          [(command.Cmd, (executeShellCommand w sPre command.Cmd false).val.isNone)] ++
          attempts (toolCommands w sC false post).trace ++
          attempts (toolLoop w sPost false skipAvailable skipTools after).trace) ∧
    (∀ (config : Config) (before after : List Tool) (wordlist : Tool) (sW : σ),
      config.Wordlists = before ++ wordlist :: after →
      sW = (wordlistLoop w s false skipAvailable skipTools before).state →
      contains skipTools wordlist.Name = false →
      (wordlist.Binary = "" ∨ checkBinaryExists w sW wordlist.Binary = false) →
      (wordlist.Path = "" ∨ checkPathExists w sW wordlist.Path = false) →
      (wordlist.Condition = "" ∨ checkCondition w sW wordlist.Condition = true) →
      AttemptsFollow wordlist.Commands
        (attempts (wordlistBody w sW false skipAvailable skipTools wordlist).trace) ∧
      ((∀ c ∈ wordlist.Commands, c.Cmd ≠ "") →
        (attempts (wordlistBody w sW false skipAvailable skipTools wordlist).trace).map
            Prod.fst =
          wordlist.Commands.map Command.Cmd) ∧
      attempts (executeWordlists w s config false skipAvailable skipTools).trace =
        attempts (wordlistLoop w s false skipAvailable skipTools before).trace ++
          attempts (wordlistBody w sW false skipAvailable skipTools wordlist).trace ++
          attempts (wordlistLoop w
            (wordlistBody w sW false skipAvailable skipTools wordlist).state false
            skipAvailable skipTools after).trace) ∧
    (∀ (config : Config) (before after : List Tool) (wordlist : Tool)
      (pre post : List Command) (command : Command) (sW sPre sC sPost : σ),
      config.Wordlists = before ++ wordlist :: after →
      wordlist.Commands = pre ++ command :: post →
      command.Cmd ≠ "" →
      sW = (wordlistLoop w s false skipAvailable skipTools before).state →
      contains skipTools wordlist.Name = false →
      (wordlist.Binary = "" ∨ checkBinaryExists w sW wordlist.Binary = false) →
      (wordlist.Path = "" ∨ checkPathExists w sW wordlist.Path = false) →
      (wordlist.Condition = "" ∨ checkCondition w sW wordlist.Condition = true) →
      sPre = (wordlistCommands w sW false pre).state →
      sC = (executeCommand w sPre command.Cmd).state →
      sPost = (wordlistCommands w sC false post).state →
      attempts (executeWordlists w s config false skipAvailable skipTools).trace =
        attempts (wordlistLoop w s false skipAvailable skipTools before).trace ++
          attempts (wordlistCommands w sW false pre).trace ++
          [(command.Cmd, (executeCommand w sPre command.Cmd).val.isNone)] ++
          attempts (wordlistCommands w sC false post).trace ++
          attempts (wordlistLoop w sPost false skipAvailable skipTools after).trace) ∧
    (∀ (config : Config) (before after : List Tool) (pathlist : Tool) (sW : σ),
      config.Wordlists = before ++ pathlist :: after →
      sW = (wordlistLoop w s false skipAvailable skipTools before).state →
      contains skipTools pathlist.Name = false →
      pathlist.Path ≠ "" → checkPathExists w sW pathlist.Path = false →
      pathlist.Binary = "" → pathlist.Condition = "" →
      wordlistBody w sW false skipAvailable skipTools pathlist =
        ⟨(wordlistCommands w sW false pathlist.Commands).state,
          entityHeader pathlist ++ (wordlistCommands w sW false pathlist.Commands).trace ++
            [Event.printf Color.plain "\n" []], ()⟩ ∧
      AttemptsFollow pathlist.Commands
        (attempts (wordlistCommands w sW false pathlist.Commands).trace) ∧
      ((∀ c ∈ pathlist.Commands, c.Cmd ≠ "") →
        (attempts (wordlistCommands w sW false pathlist.Commands).trace).map Prod.fst =
          pathlist.Commands.map Command.Cmd) ∧
      attempts (executeWordlists w s config false skipAvailable skipTools).trace =
        attempts (wordlistLoop w s false skipAvailable skipTools before).trace ++
          attempts (wordlistCommands w sW false pathlist.Commands).trace ++
          attempts (wordlistLoop w (wordlistCommands w sW false pathlist.Commands).state false
            skipAvailable skipTools after).trace) := by
  have hT : ∀ (t : σ) (e : Tool), contains skipTools e.Name = false →
      (e.Binary = "" ∨ checkBinaryExists w t e.Binary = false) →
      (e.Condition = "" ∨ checkCondition w t e.Condition = true) →
      AttemptsFollow e.Commands
        (attempts (toolBody w t false skipAvailable skipTools e).trace) := by
    intro t e hn hb hc
    rw [toolBody_of_executed w t false skipAvailable skipTools e hn hb hc]
    obtain ⟨segments, h1, h2⟩ := toolCommands_segments w e.Commands t
    exact ⟨segments, by simp [entityHeader, h1], h2⟩
  have hW : ∀ (t : σ) (e : Tool), contains skipTools e.Name = false →
      (e.Binary = "" ∨ checkBinaryExists w t e.Binary = false) →
      (e.Path = "" ∨ checkPathExists w t e.Path = false) →
      (e.Condition = "" ∨ checkCondition w t e.Condition = true) →
      AttemptsFollow e.Commands
        (attempts (wordlistBody w t false skipAvailable skipTools e).trace) := by
    intro t e hn hb hp hc
    rw [wordlistBody_of_executed w t false skipAvailable skipTools e hn hb hp hc,
      wordlistCommands_eq]
    obtain ⟨segments, h1, h2⟩ := toolCommands_segments w e.Commands t
    exact ⟨segments, by simp [entityHeader, h1], h2⟩
  refine ⟨?_, ?_, ?_, ?_, ?_⟩
  · intro config before after tool sT hcfg hsT hn hb hc
    exact ⟨hT sT tool hn hb hc, AttemptsFollow.all_single _ _ (hT sT tool hn hb hc),
      (executeTools_at_tool w s config false skipAvailable skipTools before after tool sT hcfg
        hsT).1⟩
  · intro config before after tool pre post command sT sPre sC sPost hcfg hC hcmd hsT hn hb hc
      hsPre hsC hsPost
    have h1 := executeTools_at_command w s config skipAvailable skipTools before after tool pre
      post command sT sPre sC sPost hcfg hC hsT hn hb hc hsPre
      (by rw [hsC, toolCommand_state_cmd w sPre command hcmd]) hsPost
    rw [h1, toolCommand_attempts_cmd w sPre command hcmd]
  · intro config before after wordlist sW hcfg hsW hn hb hp hc
    exact ⟨hW sW wordlist hn hb hp hc, AttemptsFollow.all_single _ _ (hW sW wordlist hn hb hp hc),
      (executeWordlists_at_wordlist w s config false skipAvailable skipTools before after
        wordlist sW hcfg hsW).1⟩
  · intro config before after wordlist pre post command sW sPre sC sPost hcfg hC hcmd hsW hn hb
      hp hc hsPre hsC hsPost
    have h1 := executeWordlists_at_command w s config skipAvailable skipTools before after
      wordlist pre post command sW sPre sC sPost hcfg hC hsW hn hb hp hc hsPre
      (by rw [hsC, wordlistCommand_eq, toolCommand_state_cmd w sPre command hcmd, executeCommand])
      hsPost
    rw [h1, wordlistCommand_eq, toolCommand_attempts_cmd w sPre command hcmd, executeCommand]
  · intro config before after pathlist sW hcfg hsW hn _ hp2 hb hc
    have hbody := wordlistBody_of_executed w sW false skipAvailable skipTools pathlist hn
      (Or.inl hb) (Or.inr hp2) (Or.inl hc)
    have hatt : attempts (wordlistBody w sW false skipAvailable skipTools pathlist).trace =
        attempts (wordlistCommands w sW false pathlist.Commands).trace := by
      rw [hbody]
      simp [entityHeader]
    have hst : (wordlistBody w sW false skipAvailable skipTools pathlist).state =
        (wordlistCommands w sW false pathlist.Commands).state := by
      rw [hbody]
    have hfol := hW sW pathlist hn (Or.inl hb) (Or.inr hp2) (Or.inl hc)
    have hpass := (executeWordlists_at_wordlist w s config false skipAvailable skipTools before
      after pathlist sW hcfg hsW).1
    rw [hatt] at hfol
    rw [hatt, hst] at hpass
    exact ⟨hbody, hfol, AttemptsFollow.all_single _ _ hfol, hpass⟩

/-- C5 in `demoWorld`, over the configuration `demoFull`: the tool `httpx` and
the wordlist `common`, whose path does not exist, are executed; the command
`false` of each fails and the later commands are attempted all the same. -/
theorem C5_failure_does_not_stop_later_commands_witness :
    (contains [] demoHttpx.Name = false ∧
      (demoHttpx.Binary = "" ∨ checkBinaryExists demoWorld 0 demoHttpx.Binary = false) ∧
      (demoHttpx.Condition = "" ∨ checkCondition demoWorld 0 demoHttpx.Condition = true)) ∧
    attempts (executeTools demoWorld 0 demoFull false false []).trace =
      attempts (toolLoop demoWorld 0 false false [] []).trace ++
        attempts (toolCommands demoWorld 0 false []).trace ++
        [("false", (executeShellCommand demoWorld 0 "false" false).val.isNone)] ++
        attempts (toolCommands demoWorld 1 false
          [⟨"", ["fetch httpx", "go install httpx", "brew install httpx"]⟩,
            ⟨"echo done", []⟩]).trace ++
        attempts (toolLoop demoWorld 4 false false [] [demoNmap]).trace ∧
    attempts (executeTools demoWorld 0 demoFull false false []).trace =
      [("false", false), ("fetch httpx", false), ("go install httpx", true),
        ("echo done", true)] ∧
    (contains [] demoCommon.Name = false ∧ demoCommon.Path ≠ "" ∧
      checkPathExists demoWorld 0 demoCommon.Path = false ∧ demoCommon.Binary = "" ∧
      demoCommon.Condition = "") ∧
    AttemptsFollow demoCommon.Commands
      (attempts (wordlistCommands demoWorld 0 false demoCommon.Commands).trace) ∧
    attempts (executeWordlists demoWorld 0 demoFull false false []).trace =
      attempts (wordlistLoop demoWorld 0 false false [] []).trace ++
        attempts (wordlistCommands demoWorld 0 false demoCommon.Commands).trace ++
        attempts (wordlistLoop demoWorld
          (wordlistCommands demoWorld 0 false demoCommon.Commands).state false false []
          []).trace ∧
    attempts (executeWordlists demoWorld 0 demoFull false false []).trace =
      [("mkdir -p $HOME/wordlists", true), ("false", false), ("fetch common.txt", false),
        ("curl -O common.txt", true), ("echo done", true)] :=
  have h := C5_failure_does_not_stop_later_commands demoWorld 0 false []
  have hP := h.2.2.2.2 demoFull [] [] demoCommon 0 rfl rfl (by decide) (by decide) (by decide)
    rfl rfl
  ⟨by decide,
    h.2.1 demoFull [] [demoNmap] demoHttpx []
      [⟨"", ["fetch httpx", "go install httpx", "brew install httpx"]⟩, ⟨"echo done", []⟩]
      ⟨"false", []⟩ 0 0 1 4 rfl rfl (by decide) rfl (by decide) (by decide) (by decide)
      rfl (by decide) (by decide),
    by decide, by decide, hP.2.1, hP.2.2.2, by decide⟩

/-- C6: `contains` is exact, case-sensitive membership, and the body of the
tool loop and of the wordlist loop ends in the skip-by-name branch if and only
if the entity's name is an element of the skip-name list; in that branch the
state is left as it was and nothing but the header and the skip message is
produced, whatever the availability and condition fields say.  An entity named
`Gau` is not skipped by the list `["gau"]`. -/
theorem C6_skip_by_name_is_exact (w : World σ) (s : σ) (dryRun skipAvailable : Bool)
    (skipTools : List String) (entity : Tool) :
    (∀ (slice : List String) (item : String), contains slice item = true ↔ item ∈ slice) ∧
    ((toolBody w s dryRun skipAvailable skipTools entity).trace = skippedByName entity ↔
      entity.Name ∈ skipTools) ∧
    ((wordlistBody w s dryRun skipAvailable skipTools entity).trace = skippedByName entity ↔
      entity.Name ∈ skipTools) ∧
    (entity.Name ∈ skipTools →
      toolBody w s dryRun skipAvailable skipTools entity = ⟨s, skippedByName entity, ()⟩ ∧
      wordlistBody w s dryRun skipAvailable skipTools entity =
        ⟨s, skippedByName entity, ()⟩) ∧
    effects (skippedByName entity) = [] ∧
    contains ["gau"] "Gau" = false ∧
    (toolBody w s dryRun skipAvailable ["gau"] demoGau).trace ≠ skippedByName demoGau ∧
    (wordlistBody w s dryRun skipAvailable ["gau"] demoGau).trace ≠
      skippedByName demoGau := by
  have key : ∀ (names : List String) (e : Tool), contains names e.Name = false →
      (toolBody w s dryRun skipAvailable names e).trace ≠ skippedByName e ∧
      (wordlistBody w s dryRun skipAvailable names e).trace ≠ skippedByName e := by
    intro names e hn
    constructor
    · by_cases hb : e.Binary ≠ "" ∧ checkBinaryExists w s e.Binary = true
      · rw [toolBody_of_available w s dryRun skipAvailable names e hn hb.1 hb.2]
        cases skipAvailable <;> simp [skippedAvailable, skippedByName]
      · have hb1 : e.Binary = "" ∨ checkBinaryExists w s e.Binary = false := by
          by_cases h1 : e.Binary = ""
          · exact Or.inl h1
          · exact Or.inr (by simpa [h1] using hb)
        by_cases hc : e.Condition ≠ "" ∧ checkCondition w s e.Condition = false
        · rw [toolBody_of_condition w s dryRun skipAvailable names e hn hb1 hc.1 hc.2]
          simp [skippedCondition, skippedByName]
        · have hc1 : e.Condition = "" ∨ checkCondition w s e.Condition = true := by
            by_cases h1 : e.Condition = ""
            · exact Or.inl h1
            · exact Or.inr (by simpa [h1] using hc)
          rw [toolBody_of_executed w s dryRun skipAvailable names e hn hb1 hc1]
          intro h
          have h2 := congrArg List.getLast? h
          simp [skippedByName] at h2
    · by_cases ha : (e.Binary ≠ "" ∧ checkBinaryExists w s e.Binary = true) ∨
          (e.Path ≠ "" ∧ checkPathExists w s e.Path = true)
      · obtain ⟨c, f, a, hf, h⟩ :=
          wordlistBody_of_available w s dryRun skipAvailable names e hn ha
        rw [h]
        simp [skippedByName]
        intro _ h3
        exact absurd h3 hf
      · have hb1 : e.Binary = "" ∨ checkBinaryExists w s e.Binary = false := by
          by_cases h1 : e.Binary = ""
          · exact Or.inl h1
          · right
            by_contra h2
            exact ha (Or.inl ⟨h1, by simpa using h2⟩)
        have hp1 : e.Path = "" ∨ checkPathExists w s e.Path = false := by
          by_cases h1 : e.Path = ""
          · exact Or.inl h1
          · right
            by_contra h2
            exact ha (Or.inr ⟨h1, by simpa using h2⟩)
        by_cases hc : e.Condition ≠ "" ∧ checkCondition w s e.Condition = false
        · rw [wordlistBody_of_condition w s dryRun skipAvailable names e hn hb1 hp1 hc.1 hc.2]
          simp [skippedCondition, skippedByName]
        · have hc1 : e.Condition = "" ∨ checkCondition w s e.Condition = true := by
            by_cases h1 : e.Condition = ""
            · exact Or.inl h1
            · exact Or.inr (by simpa [h1] using hc)
          rw [wordlistBody_of_executed w s dryRun skipAvailable names e hn hb1 hp1 hc1]
          intro h
          have h2 := congrArg List.getLast? h
          simp [skippedByName] at h2
  have hgau : contains ["gau"] "Gau" = false := by decide
  refine ⟨contains_iff, ⟨?_, ?_⟩, ⟨?_, ?_⟩, ?_, ?_, hgau, ?_, ?_⟩
  · intro h
    by_contra hn
    have hc : contains skipTools entity.Name = false := by
      cases h1 : contains skipTools entity.Name
      · rfl
      · exact absurd ((contains_iff _ _).1 h1) hn
    exact (key skipTools entity hc).1 h
  · intro h
    rw [toolBody_of_name w s dryRun skipAvailable skipTools entity ((contains_iff _ _).2 h)]
  · intro h
    by_contra hn
    have hc : contains skipTools entity.Name = false := by
      cases h1 : contains skipTools entity.Name
      · rfl
      · exact absurd ((contains_iff _ _).1 h1) hn
    exact (key skipTools entity hc).2 h
  · intro h
    rw [wordlistBody_of_name w s dryRun skipAvailable skipTools entity ((contains_iff _ _).2 h)]
  · intro h
    exact ⟨toolBody_of_name w s dryRun skipAvailable skipTools entity ((contains_iff _ _).2 h),
      wordlistBody_of_name w s dryRun skipAvailable skipTools entity ((contains_iff _ _).2 h)⟩
  · simp [skippedByName]
  · exact (key ["gau"] demoGau hgau).1
  · exact (key ["gau"] demoGau hgau).2

/-- C6 in `demoWorld`: the tool `nmap`, although its binary is present, is
skipped by name under the list `["gau", "nmap"]`. -/
theorem C6_skip_by_name_is_exact_witness :
    "nmap" ∈ ["gau", "nmap"] ∧
    toolBody demoWorld 0 false false ["gau", "nmap"] demoNmap =
      ⟨0, skippedByName demoNmap, ()⟩ ∧
    wordlistBody demoWorld 0 false false ["gau", "nmap"] demoNmap =
      ⟨0, skippedByName demoNmap, ()⟩ :=
  ⟨by decide,
    (C6_skip_by_name_is_exact demoWorld 0 false false ["gau", "nmap"] demoNmap).2.2.2.1
      (by decide)⟩

/-- C7 fails as stated: in `demoWorld` the Windows probe is false, yet the tool
`demoWindowsNmap`, whose condition is `windows` and whose declared binary is on
the search path, ends in the availability branch (`already installed`), not in
the condition branch. -/
theorem C7_counterexample :
    demoWindowsNmap.Condition = "windows" ∧
    checkCondition demoWorld 0 "windows" = false ∧
    (toolBody demoWorld 0 false false [] demoWindowsNmap).trace =
      skippedAvailable false demoWindowsNmap ∧
    (toolBody demoWorld 0 false false [] demoWindowsNmap).trace ≠
      skippedCondition demoWindowsNmap := by
  decide

/-- C7 as amended: for a tool whose condition is `windows`, on a system where
the Windows probe (`GOOS`, lower-cased, contains `windows`) is false, none of
its commands run and the state is left as it was, whatever its binary field and
the skip-name list.  The outcome is `condition not met` when the tool is not
skipped by name and its binary is undeclared or absent; it is the availability
outcome when the binary is declared and present, and skip-by-name when the name
is in the skip-name list. -/
theorem C7_windows_condition_runs_nothing (w : World σ) (s : σ)
    (dryRun skipAvailable : Bool) (skipTools : List String) (tool : Tool)
    (hc : tool.Condition = "windows") (hw : checkCondition w s "windows" = false) :
    checkCondition w s "windows" = stringsContains (w.lowerGOOS s) "windows" ∧
    (toolBody w s dryRun skipAvailable skipTools tool).state = s ∧
    effects (toolBody w s dryRun skipAvailable skipTools tool).trace = [] ∧
    (contains skipTools tool.Name = false →
      tool.Binary = "" ∨ checkBinaryExists w s tool.Binary = false →
      toolBody w s dryRun skipAvailable skipTools tool = ⟨s, skippedCondition tool, ()⟩) ∧
    (contains skipTools tool.Name = false →
      tool.Binary ≠ "" → checkBinaryExists w s tool.Binary = true →
      toolBody w s dryRun skipAvailable skipTools tool =
        ⟨s, skippedAvailable skipAvailable tool, ()⟩) ∧
    (contains skipTools tool.Name = true →
      toolBody w s dryRun skipAvailable skipTools tool = ⟨s, skippedByName tool, ()⟩) := by
  have hne : tool.Condition ≠ "" := by rw [hc]; decide
  have hv : checkCondition w s tool.Condition = false := by rw [hc]; exact hw
  have hcond : ∀ hn : contains skipTools tool.Name = false,
      tool.Binary = "" ∨ checkBinaryExists w s tool.Binary = false →
      toolBody w s dryRun skipAvailable skipTools tool = ⟨s, skippedCondition tool, ()⟩ :=
    fun hn hb => toolBody_of_condition w s dryRun skipAvailable skipTools tool hn hb hne hv
  have havail : ∀ hn : contains skipTools tool.Name = false,
      tool.Binary ≠ "" → checkBinaryExists w s tool.Binary = true →
      toolBody w s dryRun skipAvailable skipTools tool =
        ⟨s, skippedAvailable skipAvailable tool, ()⟩ :=
    fun hn hb hp => toolBody_of_available w s dryRun skipAvailable skipTools tool hn hb hp
  have hname := toolBody_of_name w s dryRun skipAvailable skipTools tool
  refine ⟨by simp [checkCondition], ?_, ?_, hcond, havail, hname⟩
  · cases hn : contains skipTools tool.Name
    · by_cases hb : tool.Binary = ""
      · rw [hcond hn (Or.inl hb)]
      · cases hp : checkBinaryExists w s tool.Binary
        · rw [hcond hn (Or.inr hp)]
        · rw [havail hn hb hp]
    · rw [hname hn]
  · cases hn : contains skipTools tool.Name
    · by_cases hb : tool.Binary = ""
      · rw [hcond hn (Or.inl hb)]
        simp [skippedCondition]
      · cases hp : checkBinaryExists w s tool.Binary
        · rw [hcond hn (Or.inr hp)]
          simp [skippedCondition]
        · rw [havail hn hb hp]
          cases skipAvailable <;> simp [skippedAvailable]
    · rw [hname hn]
      simp [skippedByName]

/-- C7 as amended, in `demoWorld`: the Windows-only tool without a binary ends
in the condition branch. -/
theorem C7_windows_condition_runs_nothing_witness :
    demoWindows.Condition = "windows" ∧
    checkCondition demoWorld 0 "windows" = false ∧
    toolBody demoWorld 0 false false [] demoWindows =
      ⟨0, skippedCondition demoWindows, ()⟩ ∧
    effects (toolBody demoWorld 0 false false [] demoWindows).trace = [] :=
  have h := C7_windows_condition_runs_nothing demoWorld 0 false false [] demoWindows rfl
    (by decide)
  ⟨rfl, by decide, h.2.2.2.1 (by decide) (Or.inl rfl), h.2.2.1⟩

/-- C8 fails as stated: with the skip-name list `["go"]` the install named `go`
is not skipped; outside dry run the commands of its first present manager are
run. -/
theorem C8_counterexample :
    demoGo ∈ demoConfig.Installs ∧
    demoGo.Name ∈ ["go"] ∧
    spawns (executeAll demoWorld 0 demoConfig false false ["go"]).trace =
      ["apt update", "apt install golang"] := by
  decide

/-- C8 as amended: skip-by-name applies to the tool pass and the wordlist pass:
an entity of either whose name is in the skip-name list ends in the
skip-by-name branch and none of its commands run.  The install pass is run
without the skip-name list: `main` runs it first, then the two other passes,
and a configuration with installs only runs exactly as `executeInstalls` does,
whatever the skip-name list holds. -/
theorem C8_skip_by_name_spares_installs (w : World σ) (s : σ)
    (dryRun skipAvailable : Bool) (skipTools : List String) (config : Config) (entity : Tool)
    (h : entity.Name ∈ skipTools) :
    toolBody w s dryRun skipAvailable skipTools entity = ⟨s, skippedByName entity, ()⟩ ∧
    wordlistBody w s dryRun skipAvailable skipTools entity = ⟨s, skippedByName entity, ()⟩ ∧
    effects (skippedByName entity) = [] ∧
    (executeAll w s config dryRun skipAvailable skipTools).trace =
      (executeInstalls w s config dryRun).trace ++
        (executeTools w (executeInstalls w s config dryRun).state config dryRun skipAvailable
          skipTools).trace ++
        (executeWordlists w
          (executeTools w (executeInstalls w s config dryRun).state config dryRun skipAvailable
            skipTools).state config dryRun skipAvailable skipTools).trace ∧
    executeAll w s ⟨config.Name, config.Description, config.Installs, [], []⟩ dryRun
        skipAvailable skipTools =
      executeInstalls w s config dryRun := by
  have hn := (contains_iff skipTools entity.Name).2 h
  refine ⟨toolBody_of_name w s dryRun skipAvailable skipTools entity hn,
    wordlistBody_of_name w s dryRun skipAvailable skipTools entity hn,
    by simp [skippedByName], rfl, ?_⟩
  simp [executeAll, executeTools, executeWordlists, executeInstalls]

/-- C8 as amended, in `demoWorld`: under the skip-name list `["nmap", "go"]`
the tool `nmap` is skipped by name, and the install `go` is run as without the
list. -/
theorem C8_skip_by_name_spares_installs_witness :
    demoNmap.Name ∈ ["nmap", "go"] ∧
    toolBody demoWorld 0 false false ["nmap", "go"] demoNmap =
      ⟨0, skippedByName demoNmap, ()⟩ ∧
    executeAll demoWorld 0 ⟨demoConfig.Name, demoConfig.Description, demoConfig.Installs, [], []⟩
        false false ["nmap", "go"] =
      executeInstalls demoWorld 0 demoConfig false :=
  have h := C8_skip_by_name_spares_installs demoWorld 0 false false ["nmap", "go"] demoConfig
    demoNmap (by decide)
  ⟨by decide, h.1, h.2.2.2.2⟩

/-- C9: for a command string that is empty or consists of white space only,
and for both values of the dry-run flag, `executeShellCommand` (and
`executeCommand`) returns the error `empty command`, never nil, starts no
subprocess and leaves the system as it was. -/
theorem C9_blank_command_is_rejected (w : World σ) (s : σ) (command : String)
    (dryRun : Bool) (h : ∀ c ∈ command.data, isSpace c = true) :
    executeShellCommand w s command dryRun =
      ⟨s, [Event.exec command dryRun (some "empty command")], some "empty command"⟩ ∧
    (executeShellCommand w s command dryRun).val ≠ none ∧
    spawns (executeShellCommand w s command dryRun).trace = [] ∧
    executeCommand w s command =
      ⟨s, [Event.exec command false (some "empty command")], some "empty command"⟩ ∧
    spawns (executeCommand w s command).trace = [] := by
  have h1 := TrimSpace_of_blank command h
  simp [executeShellCommand, executeCommand, h1]

/-- C9 at the command of a blank, a tab and a line feed, outside dry run. -/
theorem C9_blank_command_is_rejected_witness :
    (∀ c ∈ " \t\n".data, isSpace c = true) ∧
    executeShellCommand demoWorld 0 " \t\n" false =
      ⟨0, [Event.exec " \t\n" false (some "empty command")], some "empty command"⟩ ∧
    (executeShellCommand demoWorld 0 " \t\n" false).val ≠ none ∧
    spawns (executeShellCommand demoWorld 0 " \t\n" false).trace = [] ∧
    executeCommand demoWorld 0 " \t\n" =
      ⟨0, [Event.exec " \t\n" false (some "empty command")], some "empty command"⟩ ∧
    spawns (executeCommand demoWorld 0 " \t\n").trace = [] :=
  ⟨by decide, C9_blank_command_is_rejected demoWorld 0 " \t\n" false (by decide)⟩

/-- C10: the planner does not require that exactly one of `cmd` and `or` is
populated.  A `Command` with both populated is treated as the `Command` with
the same `cmd` and no `or` list: outside dry run its single `cmd` is attempted
once, whether it succeeds or fails, and no alternative is.  A `Command` with
neither populated does nothing, and the remaining commands are processed as if
it were not there.  This holds of one `Command`; of the command loop for a
`Command` anywhere in the list, whose executor calls are those of the commands
before it, then the one call of `cmd` (none for the empty `Command`), then
those of the commands after it; and of the tool pass and the wordlist pass as
a whole, for an executed entity anywhere in its list. -/
theorem C10_cmd_takes_precedence_over_or (w : World σ) (s : σ)
    (skipAvailable : Bool) (skipTools : List String) :
    (∀ (t : σ) (dryRun : Bool) (both : Command) (pre post : List Command),
      both.Cmd ≠ "" → both.Or ≠ [] →
      toolCommand w t dryRun both = toolCommand w t dryRun ⟨both.Cmd, []⟩ ∧
      attempts (toolCommand w t false both).trace =
        [(both.Cmd, (executeShellCommand w t both.Cmd false).val.isNone)] ∧
      toolCommands w t dryRun (pre ++ both :: post) =
        toolCommands w t dryRun (pre ++ ⟨both.Cmd, []⟩ :: post) ∧
      wordlistCommand w t dryRun both = wordlistCommand w t dryRun ⟨both.Cmd, []⟩ ∧
      attempts (wordlistCommand w t false both).trace =
        [(both.Cmd, (executeCommand w t both.Cmd).val.isNone)] ∧
      wordlistCommands w t dryRun (pre ++ both :: post) =
        wordlistCommands w t dryRun (pre ++ ⟨both.Cmd, []⟩ :: post)) ∧
    (∀ (t : σ) (dryRun : Bool) (neither : Command) (pre post : List Command),
      neither.Cmd = "" → neither.Or = [] →
      toolCommand w t dryRun neither = ⟨t, [], ()⟩ ∧
      toolCommands w t dryRun (neither :: post) = toolCommands w t dryRun post ∧
      toolCommands w t dryRun (pre ++ neither :: post) = toolCommands w t dryRun (pre ++ post) ∧
      wordlistCommand w t dryRun neither = ⟨t, [], ()⟩ ∧
      wordlistCommands w t dryRun (neither :: post) = wordlistCommands w t dryRun post ∧
      wordlistCommands w t dryRun (pre ++ neither :: post) =
        wordlistCommands w t dryRun (pre ++ post)) ∧
    (∀ (t : σ) (both : Command) (pre post : List Command) (sPre sC : σ),
      both.Cmd ≠ "" → both.Or ≠ [] →
      (sPre = (toolCommands w t false pre).state →
        sC = (executeShellCommand w sPre both.Cmd false).state →
        attempts (toolCommands w t false (pre ++ both :: post)).trace =
          attempts (toolCommands w t false pre).trace ++
            [(both.Cmd, (executeShellCommand w sPre both.Cmd false).val.isNone)] ++
            attempts (toolCommands w sC false post).trace) ∧
      (sPre = (wordlistCommands w t false pre).state →
        sC = (executeCommand w sPre both.Cmd).state →
        attempts (wordlistCommands w t false (pre ++ both :: post)).trace =
          attempts (wordlistCommands w t false pre).trace ++
            [(both.Cmd, (executeCommand w sPre both.Cmd).val.isNone)] ++
            attempts (wordlistCommands w sC false post).trace)) ∧
    (∀ (t : σ) (neither : Command) (pre post : List Command) (sPre : σ),
      neither.Cmd = "" → neither.Or = [] →
      (sPre = (toolCommands w t false pre).state →
        attempts (toolCommands w t false (pre ++ neither :: post)).trace =
          attempts (toolCommands w t false pre).trace ++
            attempts (toolCommands w sPre false post).trace) ∧
      (sPre = (wordlistCommands w t false pre).state →
        attempts (wordlistCommands w t false (pre ++ neither :: post)).trace =
          attempts (wordlistCommands w t false pre).trace ++
            attempts (wordlistCommands w sPre false post).trace)) ∧
    (∀ (config : Config) (before after : List Tool) (tool : Tool) (pre post : List Command)
      (both : Command) (sT sPre sC sPost : σ),
      config.Tools = before ++ tool :: after →
      tool.Commands = pre ++ both :: post →
      both.Cmd ≠ "" → both.Or ≠ [] →
      sT = (toolLoop w s false skipAvailable skipTools before).state →
      contains skipTools tool.Name = false →
      (tool.Binary = "" ∨ checkBinaryExists w sT tool.Binary = false) →
      (tool.Condition = "" ∨ checkCondition w sT tool.Condition = true) →
      sPre = (toolCommands w sT false pre).state →
      sC = (executeShellCommand w sPre both.Cmd false).state →
      sPost = (toolCommands w sC false post).state →
      attempts (executeTools w s config false skipAvailable skipTools).trace =
        attempts (toolLoop w s false skipAvailable skipTools before).trace ++
          attempts (toolCommands w sT false pre).trace ++
          [(both.Cmd, (executeShellCommand w sPre both.Cmd false).val.isNone)] ++
          attempts (toolCommands w sC false post).trace ++
          attempts (toolLoop w sPost false skipAvailable skipTools after).trace) ∧
    (∀ (config : Config) (before after : List Tool) (wordlist : Tool)
      (pre post : List Command) (both : Command) (sW sPre sC sPost : σ),
      config.Wordlists = before ++ wordlist :: after →
      wordlist.Commands = pre ++ both :: post →
      both.Cmd ≠ "" → both.Or ≠ [] →
      sW = (wordlistLoop w s false skipAvailable skipTools before).state →
      contains skipTools wordlist.Name = false →
      (wordlist.Binary = "" ∨ checkBinaryExists w sW wordlist.Binary = false) →
      (wordlist.Path = "" ∨ checkPathExists w sW wordlist.Path = false) →
      (wordlist.Condition = "" ∨ checkCondition w sW wordlist.Condition = true) →
      sPre = (wordlistCommands w sW false pre).state →
      sC = (executeCommand w sPre both.Cmd).state →
      sPost = (wordlistCommands w sC false post).state →
      attempts (executeWordlists w s config false skipAvailable skipTools).trace =
        attempts (wordlistLoop w s false skipAvailable skipTools before).trace ++
          attempts (wordlistCommands w sW false pre).trace ++
          [(both.Cmd, (executeCommand w sPre both.Cmd).val.isNone)] ++
          attempts (wordlistCommands w sC false post).trace ++
          attempts (wordlistLoop w sPost false skipAvailable skipTools after).trace) ∧
    (∀ (config : Config) (before after : List Tool) (tool : Tool) (pre post : List Command)
      (neither : Command) (sT sPre sPost : σ),
      config.Tools = before ++ tool :: after →
      tool.Commands = pre ++ neither :: post →
      neither.Cmd = "" → neither.Or = [] →
      sT = (toolLoop w s false skipAvailable skipTools before).state →
      contains skipTools tool.Name = false →
      (tool.Binary = "" ∨ checkBinaryExists w sT tool.Binary = false) →
      (tool.Condition = "" ∨ checkCondition w sT tool.Condition = true) →
      sPre = (toolCommands w sT false pre).state →
      sPost = (toolCommands w sPre false post).state →
      attempts (executeTools w s config false skipAvailable skipTools).trace =
        attempts (toolLoop w s false skipAvailable skipTools before).trace ++
          attempts (toolCommands w sT false pre).trace ++
          attempts (toolCommands w sPre false post).trace ++
          attempts (toolLoop w sPost false skipAvailable skipTools after).trace) ∧
    (∀ (config : Config) (before after : List Tool) (wordlist : Tool)
      (pre post : List Command) (neither : Command) (sW sPre sPost : σ),
      config.Wordlists = before ++ wordlist :: after →
      wordlist.Commands = pre ++ neither :: post →
      neither.Cmd = "" → neither.Or = [] →
      sW = (wordlistLoop w s false skipAvailable skipTools before).state →
      contains skipTools wordlist.Name = false →
      (wordlist.Binary = "" ∨ checkBinaryExists w sW wordlist.Binary = false) →
      (wordlist.Path = "" ∨ checkPathExists w sW wordlist.Path = false) →
      (wordlist.Condition = "" ∨ checkCondition w sW wordlist.Condition = true) →
      sPre = (wordlistCommands w sW false pre).state →
      sPost = (wordlistCommands w sPre false post).state →
      attempts (executeWordlists w s config false skipAvailable skipTools).trace =
        attempts (wordlistLoop w s false skipAvailable skipTools before).trace ++
          attempts (wordlistCommands w sW false pre).trace ++
          attempts (wordlistCommands w sPre false post).trace ++
          attempts (wordlistLoop w sPost false skipAvailable skipTools after).trace) := by
  have hboth : ∀ (t : σ) (dryRun : Bool) (both : Command), both.Cmd ≠ "" →
      toolCommand w t dryRun both = toolCommand w t dryRun ⟨both.Cmd, []⟩ := by
    intro t dryRun both h
    simp [toolCommand, h]
  have hloop : ∀ (t : σ) (dryRun : Bool) (c1 c2 : Command) (pre post : List Command),
      (∀ u : σ, toolCommand w u dryRun c1 = toolCommand w u dryRun c2) →
      toolCommands w t dryRun (pre ++ c1 :: post) =
        toolCommands w t dryRun (pre ++ c2 :: post) := by
    intro t dryRun c1 c2 pre post h
    rw [toolCommands_append, toolCommands_append]
    simp only [toolCommands, h]
  have hskip : ∀ (t : σ) (dryRun : Bool) (neither : Command) (post : List Command),
      neither.Cmd = "" → neither.Or = [] →
      toolCommands w t dryRun (neither :: post) = toolCommands w t dryRun post := by
    intro t dryRun neither post h1 h2
    simp [toolCommands, toolCommand_of_neither w t dryRun neither h1 h2]
  have hskip2 : ∀ (t : σ) (dryRun : Bool) (neither : Command) (pre post : List Command),
      neither.Cmd = "" → neither.Or = [] →
      toolCommands w t dryRun (pre ++ neither :: post) =
        toolCommands w t dryRun (pre ++ post) := by
    intro t dryRun neither pre post h1 h2
    rw [toolCommands_append, toolCommands_append, hskip _ dryRun neither post h1 h2]
  refine ⟨?_, ?_, ?_, ?_, ?_, ?_, ?_, ?_⟩
  · intro t dryRun both pre post h1 _
    refine ⟨hboth t dryRun both h1, toolCommand_attempts_cmd w t both h1,
      hloop t dryRun both _ pre post (fun u => hboth u dryRun both h1), ?_, ?_, ?_⟩
    · rw [wordlistCommand_eq, wordlistCommand_eq]
      exact hboth t dryRun both h1
    · rw [wordlistCommand_eq, executeCommand]
      exact toolCommand_attempts_cmd w t both h1
    · rw [wordlistCommands_eq, wordlistCommands_eq]
      exact hloop t dryRun both _ pre post (fun u => hboth u dryRun both h1)
  · intro t dryRun neither pre post h1 h2
    refine ⟨toolCommand_of_neither w t dryRun neither h1 h2, hskip t dryRun neither post h1 h2,
      hskip2 t dryRun neither pre post h1 h2, ?_, ?_, ?_⟩
    · rw [wordlistCommand_eq]
      exact toolCommand_of_neither w t dryRun neither h1 h2
    · rw [wordlistCommands_eq, wordlistCommands_eq]
      exact hskip t dryRun neither post h1 h2
    · rw [wordlistCommands_eq, wordlistCommands_eq]
      exact hskip2 t dryRun neither pre post h1 h2
  · intro t both pre post sPre sC h1 _
    constructor
    · intro hsPre hsC
      have h := toolCommands_at_command w t false pre post both sPre sC hsPre
        (by rw [hsC, toolCommand_state_cmd w sPre both h1])
      rw [h.1, toolCommand_attempts_cmd w sPre both h1]
    · intro hsPre hsC
      simp only [wordlistCommands_eq, executeCommand] at hsPre hsC ⊢
      have h := toolCommands_at_command w t false pre post both sPre sC hsPre
        (by rw [hsC, toolCommand_state_cmd w sPre both h1])
      rw [h.1, toolCommand_attempts_cmd w sPre both h1]
  · intro t neither pre post sPre h1 h2
    constructor
    · intro hsPre
      have h := toolCommands_at_command w t false pre post neither sPre sPre hsPre
        (by rw [toolCommand_of_neither w sPre false neither h1 h2])
      rw [h.1, toolCommand_of_neither w sPre false neither h1 h2]
      simp
    · intro hsPre
      simp only [wordlistCommands_eq] at hsPre ⊢
      have h := toolCommands_at_command w t false pre post neither sPre sPre hsPre
        (by rw [toolCommand_of_neither w sPre false neither h1 h2])
      rw [h.1, toolCommand_of_neither w sPre false neither h1 h2]
      simp
  · intro config before after tool pre post both sT sPre sC sPost hcfg hC h1 _ hsT hn hb hc
      hsPre hsC hsPost
    have h := executeTools_at_command w s config skipAvailable skipTools before after tool pre
      post both sT sPre sC sPost hcfg hC hsT hn hb hc hsPre
      (by rw [hsC, toolCommand_state_cmd w sPre both h1]) hsPost
    rw [h, toolCommand_attempts_cmd w sPre both h1]
  · intro config before after wordlist pre post both sW sPre sC sPost hcfg hC h1 _ hsW hn hb hp
      hc hsPre hsC hsPost
    have h := executeWordlists_at_command w s config skipAvailable skipTools before after
      wordlist pre post both sW sPre sC sPost hcfg hC hsW hn hb hp hc hsPre
      (by rw [hsC, wordlistCommand_eq, toolCommand_state_cmd w sPre both h1, executeCommand])
      hsPost
    rw [h, wordlistCommand_eq, toolCommand_attempts_cmd w sPre both h1, executeCommand]
  · intro config before after tool pre post neither sT sPre sPost hcfg hC h1 h2 hsT hn hb hc
      hsPre hsPost
    have h := executeTools_at_command w s config skipAvailable skipTools before after tool pre
      post neither sT sPre sPre sPost hcfg hC hsT hn hb hc hsPre
      (by rw [toolCommand_of_neither w sPre false neither h1 h2]) hsPost
    rw [h, toolCommand_of_neither w sPre false neither h1 h2]
    simp
  · intro config before after wordlist pre post neither sW sPre sPost hcfg hC h1 h2 hsW hn hb hp
      hc hsPre hsPost
    have h := executeWordlists_at_command w s config skipAvailable skipTools before after
      wordlist pre post neither sW sPre sPre sPost hcfg hC hsW hn hb hp hc hsPre
      (by rw [wordlistCommand_eq, toolCommand_of_neither w sPre false neither h1 h2]) hsPost
    rw [h, wordlistCommand_eq, toolCommand_of_neither w sPre false neither h1 h2]
    simp

/-- C10 in `demoWorld`, over the tool and wordlist `mixed`: the empty `Command`
adds nothing, the `Command` with `cmd: false` and a fallback list attempts
`false` only, which fails, the fallback is not tried, and the command after it
is attempted. -/
theorem C10_cmd_takes_precedence_over_or_witness :
    (demoBoth.Cmd ≠ "" ∧ demoBoth.Or ≠ [] ∧ demoNeither.Cmd = "" ∧ demoNeither.Or = []) ∧
    (contains [] demoMixed.Name = false ∧
      demoMixedConfig.Tools = [] ++ demoMixed :: [] ∧
      demoMixed.Commands = [demoNeither] ++ demoBoth :: [⟨"echo after", []⟩]) ∧
    attempts (toolCommand demoWorld 0 false demoBoth).trace =
      [(demoBoth.Cmd, (executeShellCommand demoWorld 0 demoBoth.Cmd false).val.isNone)] ∧
    attempts (executeTools demoWorld 0 demoMixedConfig false false []).trace =
      attempts (toolLoop demoWorld 0 false false [] []).trace ++
        attempts (toolCommands demoWorld 0 false [demoNeither]).trace ++
        [(demoBoth.Cmd, (executeShellCommand demoWorld 0 demoBoth.Cmd false).val.isNone)] ++
        attempts (toolCommands demoWorld 1 false [⟨"echo after", []⟩]).trace ++
        attempts (toolLoop demoWorld 2 false false [] []).trace ∧
    attempts (executeWordlists demoWorld 0 demoMixedConfig false false []).trace =
      attempts (wordlistLoop demoWorld 0 false false [] []).trace ++
        attempts (wordlistCommands demoWorld 0 false []).trace ++
        attempts (wordlistCommands demoWorld 0 false [demoBoth, ⟨"echo after", []⟩]).trace ++
        attempts (wordlistLoop demoWorld 2 false false [] []).trace ∧
    attempts (executeTools demoWorld 0 demoMixedConfig false false []).trace =
      [("false", false), ("echo after", true)] ∧
    attempts (executeWordlists demoWorld 0 demoMixedConfig false false []).trace =
      [("false", false), ("echo after", true)] :=
  have h := C10_cmd_takes_precedence_over_or demoWorld 0 false []
  ⟨by decide, by decide,
    (h.1 0 false demoBoth [] [] (by decide) (by decide)).2.1,
    h.2.2.2.2.1 demoMixedConfig [] [] demoMixed [demoNeither] [⟨"echo after", []⟩] demoBoth
      0 0 1 2 rfl rfl (by decide) (by decide) rfl (by decide) (by decide) (by decide)
      (by decide) (by decide) (by decide),
    h.2.2.2.2.2.2.2 demoMixedConfig [] [] demoMixed [] [demoBoth, ⟨"echo after", []⟩]
      demoNeither 0 0 2 rfl rfl rfl rfl rfl (by decide) (by decide) (by decide) (by decide)
      (by decide) (by decide),
    by decide, by decide⟩

end Claims

end Shotit
